import Mathlib

/-!
Shallow embedding of the progressive-overload recommendation engine of the
gym-tracker repository (src/services/supabase.ts, progression section, and the
support metrics calculate1RM / calculateVolume / getBestSet).

JavaScript numbers are modelled by `JSVal`: NaN, the two infinities, and finite
values as exact rationals.  The engine validates every working set for
finiteness and non-negativity before doing any arithmetic with it, so on every
path where the strategies compute averages, consensus weights or new weights,
all operands are finite and the rational arithmetic below coincides with the
JavaScript source (whose inputs of interest - weights on a 0.5 grid, integer
reps - are exact in doubles as well).  Messages are built with Lean's rational
rendering in place of the JavaScript number-to-string conversion; no theorem
depends on the digits inside a message.
-/

/-- A JavaScript number: NaN, +Infinity, -Infinity, or a finite value. -/
inductive JSVal where
  | nan : JSVal
  | inf : JSVal
  | ninf : JSVal
  | num : ℚ → JSVal
deriving DecidableEq, Repr

/-- Number.isFinite. -/
def JSVal.isFinite : JSVal → Bool
  | .num _ => true
  | _ => false

/-- The JavaScript comparison x < 0 (false on NaN). -/
def JSVal.isNeg : JSVal → Bool
  | .num q => decide (q < 0)
  | .ninf => true
  | _ => false

/-- The finite value carried by a JSVal (0 for the non-finite values; the
engine only extracts this after its finiteness checks). -/
def JSVal.toQ : JSVal → ℚ
  | .num q => q
  | _ => 0

/-- JavaScript strict equality on numbers: NaN is not equal to anything. -/
def jsEq : JSVal → JSVal → Bool
  | .nan, _ => false
  | _, .nan => false
  | a, b => a == b

/-- JavaScript comparison a >= b (false whenever NaN is involved). -/
def jsGe : JSVal → JSVal → Bool
  | .nan, _ => false
  | _, .nan => false
  | .num a, .num b => decide (a ≥ b)
  | .inf, _ => true
  | _, .inf => false
  | _, .ninf => true
  | .ninf, _ => false

/-- JavaScript comparison a > b (false whenever NaN is involved). -/
def jsGt : JSVal → JSVal → Bool
  | .nan, _ => false
  | _, .nan => false
  | .num a, .num b => decide (a > b)
  | .inf, .inf => false
  | .inf, _ => true
  | _, .inf => false
  | .ninf, _ => false
  | _, .ninf => true

/-- JavaScript addition. -/
def jsAdd : JSVal → JSVal → JSVal
  | .nan, _ => .nan
  | _, .nan => .nan
  | .inf, .ninf => .nan
  | .ninf, .inf => .nan
  | .inf, _ => .inf
  | _, .inf => .inf
  | .ninf, _ => .ninf
  | _, .ninf => .ninf
  | .num a, .num b => .num (a + b)

/-- JavaScript multiplication. -/
def jsMul : JSVal → JSVal → JSVal
  | .nan, _ => .nan
  | _, .nan => .nan
  | .inf, .inf => .inf
  | .inf, .ninf => .ninf
  | .ninf, .inf => .ninf
  | .ninf, .ninf => .inf
  | .inf, .num b => if b = 0 then .nan else if b > 0 then .inf else .ninf
  | .num a, .inf => if a = 0 then .nan else if a > 0 then .inf else .ninf
  | .ninf, .num b => if b = 0 then .nan else if b > 0 then .ninf else .inf
  | .num a, .ninf => if a = 0 then .nan else if a > 0 then .ninf else .inf
  | .num a, .num b => .num (a * b)

/-- JavaScript Math.round on a finite value: round half toward positive
infinity. -/
def jsRound (q : ℚ) : ℚ := ⌊q + 1 / 2⌋

/-- One logged set (fields of the WorkoutSet type used by the engine). -/
structure WorkoutSet where
  weight : JSVal
  reps : JSVal
  isWarmup : Bool
  completed : Bool
deriving DecidableEq, Repr

/-- The exercise configuration fields read by the engine.  The set-range
fields are optional in the source type; the double strategy destructures them
with defaults 4 and 3, the triple strategy reads them directly (a comparison
against an absent field is false in JavaScript, mirrored by qGtOpt / qLtOpt
below). -/
structure Exercise where
  progressionType : String
  weightIncrement : ℚ
  targetRepMin : ℚ
  targetRepMax : ℚ
  targetSetsMin : Option ℚ
  targetSetsMax : Option ℚ
deriving DecidableEq, Repr

/-- The action field of a ProgressionSuggestion (the source string enum). -/
inductive SuggestionAction where
  | increase_weight
  | increase_reps
  | add_set
  | maintain
  | reduce_weight
deriving DecidableEq, Repr

/-- The engine output.  Fields that a branch of the source does not set are
none. -/
structure ProgressionSuggestion where
  action : SuggestionAction
  newWeight : Option ℚ := none
  targetReps : Option ℚ := none
  newReps : Option ℚ := none
  newSets : Option ℚ := none
  message : String
deriving DecidableEq, Repr

/-- JavaScript comparison a > b where b may be an absent (undefined) field:
comparing with undefined is false. -/
def qGtOpt (a : ℚ) : Option ℚ → Bool
  | some b => decide (a > b)
  | none => false

/-- JavaScript comparison a < b where b may be an absent (undefined) field. -/
def qLtOpt (a : ℚ) : Option ℚ → Bool
  | some b => decide (a < b)
  | none => false

/-- Rendering of a rational for a message. -/
def qStr (q : ℚ) : String := toString q

/-- Rendering of an optional rational for a message (undefined prints as
"undefined" in a template literal). -/
def optQStr : Option ℚ → String
  | some q => toString q
  | none => "undefined"

/-- roundWeight from the source: Math.round(weight / precision) * precision,
with the default precision 0.5. -/
def roundWeight (weight : ℚ) : ℚ := jsRound (weight / (1 / 2)) * (1 / 2)

/-- A set is invalid when weight or reps is non-finite or negative
(getInvalidSets filter predicate). -/
def isInvalidSet (s : WorkoutSet) : Bool :=
  !s.weight.isFinite || s.weight.isNeg || !s.reps.isFinite || s.reps.isNeg

/-- getInvalidSets from the source. -/
def getInvalidSets (sets : List WorkoutSet) : List WorkoutSet :=
  sets.filter isInvalidSet

/-- The non-warmup sets of a session (allSets in the source). -/
def allSetsOf (lastSets : List WorkoutSet) : List WorkoutSet :=
  lastSets.filter (fun s => !s.isWarmup)

/-- The completed non-warmup sets of a session (workingSets in the source). -/
def workingSetsOf (lastSets : List WorkoutSet) : List WorkoutSet :=
  lastSets.filter (fun s => !s.isWarmup && s.completed)

/-- First-occurrence deduplication, as iterating a JavaScript Set built from
an array (Set membership uses SameValueZero, i.e. structural equality on
JSVal). -/
def dedupeFirstAux (seen : List JSVal) : List JSVal → List JSVal
  | [] => []
  | x :: xs =>
    if seen.contains x then dedupeFirstAux seen xs
    else x :: dedupeFirstAux (x :: seen) xs

/-- The distinct weights, in first-occurrence order: the source's
[...new Set(workingSets.map(s => s.weight))]. -/
def dedupeFirst (l : List JSVal) : List JSVal := dedupeFirstAux [] l

/-- Occurrence count of a weight among sets, with JavaScript strict equality
(the source's workingSets.filter(s => s.weight === w).length). -/
def countWeight (w : JSVal) (sets : List WorkoutSet) : Nat :=
  (sets.filter (fun s => jsEq s.weight w)).length

/-- A weight paired with its occurrence count. -/
structure WeightCount where
  weight : JSVal
  count : Nat
deriving DecidableEq, Repr

/-- The sort comparator of getMostCommonWeight, (a, b) => b.count - a.count
|| b.weight - a.weight, read as: a is strictly before b in the sorted order
(higher count first, then higher weight). -/
def wcBefore (a b : WeightCount) : Bool :=
  decide (a.count > b.count) || (decide (a.count = b.count) && jsGt a.weight b.weight)

/-- The first element of the array sorted by wcBefore, i.e. the maximum under
that strict order (the comparator never ties on the deduplicated list, so the
sorted head is this maximum). -/
def pickFirstSorted : WeightCount → List WeightCount → WeightCount
  | best, [] => best
  | best, x :: xs => pickFirstSorted (if wcBefore x best then x else best) xs

/-- getMostCommonWeight from the source.  A single distinct weight
short-circuits; otherwise the weight with the highest occurrence count wins,
ties going to the larger weight.  (The source indexes sorted[0]; on an empty
list that would throw, and every caller guards against it - the [] arm below
is unreachable.) -/
def getMostCommonWeight (workingSets : List WorkoutSet) : JSVal :=
  match dedupeFirst (workingSets.map (fun s => s.weight)) with
  | [] => .num 0
  | [w] => w
  | w :: v :: vs =>
    (pickFirstSorted ⟨w, countWeight w workingSets⟩
      ((v :: vs).map (fun x => ⟨x, countWeight x workingSets⟩))).weight

/-- The consensus weight as a rational; on every path where the engine uses
it, the invalid-set guard has ensured it is finite. -/
def consensusWeightQ (workingSets : List WorkoutSet) : ℚ :=
  (getMostCommonWeight workingSets).toQ

/-- Math.round(sum of reps / count) from the source; on every path where the
engine uses it, the invalid-set guard has ensured every rep is finite, so the
rational arithmetic coincides with the JavaScript one. -/
def avgRepsOf (workingSets : List WorkoutSet) : ℚ :=
  jsRound ((workingSets.map (fun s => s.reps.toQ)).sum / workingSets.length)

/-- The body of getDoubleProgressionSuggestion, after the source has computed
its two filtered views of lastSets (it never reads lastSets again). -/
def doubleCore (allSets workingSets : List WorkoutSet) (exercise : Exercise)
    (units : String) : ProgressionSuggestion :=
  let targetRepMin := exercise.targetRepMin
  let targetRepMax := exercise.targetRepMax
  let weightIncrement := exercise.weightIncrement
  if workingSets.length = 0 then
    if allSets.length > 0 then
      { action := .maintain
        message := "No completed sets. Consider reducing the weight or taking more rest between sets" }
    else
      { action := .maintain
        message := "Start with a weight you can do for " ++ qStr targetRepMin ++ " reps" }
  else if (getInvalidSets workingSets).length > 0 then
    { action := .maintain
      message := "Invalid set data detected. Please check your logged weights and reps" }
  else
    let lastWeight := consensusWeightQ workingSets
    let avgReps := avgRepsOf workingSets
    if avgReps < targetRepMin / 2 then
      let reducedWeight := max 0 (lastWeight - weightIncrement)
      if reducedWeight = 0 ∧ lastWeight = 0 then
        { action := .maintain, newWeight := some 0, targetReps := some targetRepMin
          message := "Try a lighter variation or focus on form with bodyweight" }
      else
        { action := .reduce_weight, newWeight := some reducedWeight
          targetReps := some targetRepMin
          message := "Weight too heavy (only " ++ qStr avgReps ++ " reps avg). Reduce to "
            ++ qStr reducedWeight ++ units ++ " and aim for " ++ qStr targetRepMin ++ " reps" }
    else
      let allHitMaxReps := workingSets.all (fun s => jsGe s.reps (.num targetRepMax))
      let targetSetsMax := exercise.targetSetsMax.getD 4
      if (workingSets.length : ℚ) > targetSetsMax then
        { action := .maintain, newWeight := some lastWeight, targetReps := some (avgRepsOf workingSets)
          message := "Too many sets (" ++ toString workingSets.length ++ "). Reduce to "
            ++ qStr targetSetsMax ++ " sets at " ++ qStr lastWeight ++ units
            ++ " for better recovery" }
      else if allHitMaxReps then
        if avgReps > targetRepMax * (3 / 2) ∧ weightIncrement > 0 then
          let newWeight := roundWeight (lastWeight + weightIncrement * 2)
          { action := .increase_weight, newWeight := some newWeight, newReps := some targetRepMin
            message := "Crushing it (" ++ qStr avgReps ++ " reps avg)! Jump to "
              ++ qStr newWeight ++ units ++ " and aim for " ++ qStr targetRepMin ++ " reps" }
        else
          let newWeight := if weightIncrement > 0 then roundWeight (lastWeight + weightIncrement)
            else lastWeight
          if weightIncrement = 0 then
            { action := .maintain, newWeight := some lastWeight, targetReps := some targetRepMax
              message := "Great form! Keep at " ++ qStr lastWeight ++ units ++ " for "
                ++ qStr targetRepMax ++ " reps (bodyweight exercise)" }
          else
            { action := .increase_weight, newWeight := some newWeight, newReps := some targetRepMin
              message := "All sets hit " ++ qStr targetRepMax ++ " reps! Increase weight to "
                ++ qStr newWeight ++ units ++ " and aim for " ++ qStr targetRepMin ++ " reps" }
      else
        let targetReps := min (avgReps + 1) targetRepMax
        { action := .increase_reps, newWeight := some lastWeight, targetReps := some targetReps
          message := "Keep weight at " ++ qStr lastWeight ++ units ++ " and aim for "
            ++ qStr targetReps ++ " reps per set" }

/-- getDoubleProgressionSuggestion from the source. -/
def getDoubleProgressionSuggestion (lastSets : List WorkoutSet) (exercise : Exercise)
    (units : String) : ProgressionSuggestion :=
  doubleCore (allSetsOf lastSets) (workingSetsOf lastSets) exercise units

/-- The body of getTripleProgressionSuggestion, after the source has computed
its two filtered views of lastSets (it never reads lastSets again). -/
def tripleCore (allSets workingSets : List WorkoutSet) (exercise : Exercise)
    (units : String) : ProgressionSuggestion :=
  let targetRepMin := exercise.targetRepMin
  let targetRepMax := exercise.targetRepMax
  let targetSetsMin := exercise.targetSetsMin
  let targetSetsMax := exercise.targetSetsMax
  let weightIncrement := exercise.weightIncrement
  if workingSets.length = 0 then
    if allSets.length > 0 then
      { action := .maintain, newSets := targetSetsMin, newReps := some targetRepMin
        message := "No completed sets. Consider reducing the weight or taking more rest between sets" }
    else
      { action := .maintain, newSets := targetSetsMin, newReps := some targetRepMin
        message := "Start with " ++ optQStr targetSetsMin ++ " sets of " ++ qStr targetRepMin
          ++ " reps at a challenging weight" }
  else if (getInvalidSets workingSets).length > 0 then
    { action := .maintain, newSets := targetSetsMin
      message := "Invalid set data detected. Please check your logged weights and reps" }
  else
    let lastWeight := consensusWeightQ workingSets
    let currentSetCount := workingSets.length
    let avgReps := avgRepsOf workingSets
    if avgReps < targetRepMin / 2 then
      let reducedWeight := max 0 (lastWeight - weightIncrement)
      if reducedWeight = 0 ∧ lastWeight = 0 then
        { action := .maintain, newSets := targetSetsMin, targetReps := some targetRepMin
          message := "Try a lighter variation or focus on form" }
      else
        { action := .reduce_weight, newWeight := some reducedWeight, newSets := targetSetsMin
          targetReps := some targetRepMin
          message := "Weight too heavy. Reduce to " ++ qStr reducedWeight ++ units ++ ", "
            ++ optQStr targetSetsMin ++ " sets of " ++ qStr targetRepMin ++ " reps" }
    else
      let allHitMaxReps := workingSets.all (fun s => jsGe s.reps (.num targetRepMax))
      if qGtOpt (currentSetCount : ℚ) targetSetsMax then
        { action := .maintain, newWeight := some lastWeight, newSets := targetSetsMax
          targetReps := some (avgRepsOf workingSets)
          message := "Too many sets (" ++ toString currentSetCount ++ "). Reduce to "
            ++ optQStr targetSetsMax ++ " sets at " ++ qStr lastWeight ++ units
            ++ " for better recovery" }
      else if allHitMaxReps then
        if qLtOpt (currentSetCount : ℚ) targetSetsMax then
          let newSetCount := currentSetCount + 1
          { action := .add_set, newWeight := some lastWeight, newSets := some (newSetCount : ℚ)
            newReps := some targetRepMin
            message := "Great job hitting " ++ qStr targetRepMax ++ " reps on all sets! Add a set ("
              ++ toString newSetCount ++ " total) and drop back to " ++ qStr targetRepMin ++ " reps" }
        else if avgReps > targetRepMax * (3 / 2) ∧ weightIncrement > 0 then
          let newWeight := roundWeight (lastWeight + weightIncrement * 2)
          { action := .increase_weight, newWeight := some newWeight, newSets := targetSetsMin
            newReps := some targetRepMin
            message := "Crushing it (" ++ qStr avgReps ++ " reps avg)! Jump to " ++ qStr newWeight
              ++ units ++ ", " ++ optQStr targetSetsMin ++ " sets of " ++ qStr targetRepMin ++ " reps" }
        else if weightIncrement = 0 then
          { action := .maintain, newWeight := some lastWeight, newSets := targetSetsMax
            targetReps := some targetRepMax
            message := "Great form! Keep at " ++ qStr lastWeight ++ units ++ " for "
              ++ optQStr targetSetsMax ++ " sets of " ++ qStr targetRepMax
              ++ " reps (bodyweight exercise)" }
        else
          let newWeight := roundWeight (lastWeight + weightIncrement)
          { action := .increase_weight, newWeight := some newWeight, newSets := targetSetsMin
            newReps := some targetRepMin
            message := "Maxed out! Increase weight to " ++ qStr newWeight ++ units ++ ", reset to "
              ++ optQStr targetSetsMin ++ " sets of " ++ qStr targetRepMin ++ " reps" }
      else
        let targetReps := min (avgReps + 1) targetRepMax
        { action := .increase_reps, newWeight := some lastWeight
          newSets := some (currentSetCount : ℚ), targetReps := some targetReps
          message := "Keep weight at " ++ qStr lastWeight ++ units ++ " with "
            ++ toString currentSetCount ++ " sets, aim for " ++ qStr targetReps ++ " reps" }

/-- getTripleProgressionSuggestion from the source. -/
def getTripleProgressionSuggestion (lastSets : List WorkoutSet) (exercise : Exercise)
    (units : String) : ProgressionSuggestion :=
  tripleCore (allSetsOf lastSets) (workingSetsOf lastSets) exercise units

/-- getProgressionSuggestion from the source: dispatch on progressionType. -/
def getProgressionSuggestion (lastSets : List WorkoutSet) (exercise : Exercise)
    (units : String) : ProgressionSuggestion :=
  if exercise.progressionType = "triple" then
    getTripleProgressionSuggestion lastSets exercise units
  else
    getDoubleProgressionSuggestion lastSets exercise units

/-- calculate1RM from the source (Epley with the multiplier capped at 1).
After the finiteness guard both arguments are finite, so the remaining guards
and arithmetic read their rational values. -/
def calculate1RM (weight reps : JSVal) : ℚ :=
  if !weight.isFinite || !reps.isFinite then 0
  else if weight.toQ < 0 ∨ reps.toQ < 0 then 0
  else if reps.toQ = 0 then 0
  else if reps.toQ = 1 then weight.toQ
  else jsRound (weight.toQ * (1 + min (reps.toQ / 30) 1))

/-- calculateVolume from the source: sum of weight * reps over completed
non-warmup sets, in JavaScript arithmetic (no validation is performed here). -/
def calculateVolume (sets : List WorkoutSet) : JSVal :=
  (workingSetsOf sets).foldl (fun total s => jsAdd total (jsMul s.weight s.reps)) (.num 0)

/-- getBestSet from the source: the working set with the highest estimated
1RM under a left-to-right reduce (strict > keeps the earlier set on ties);
null when there is no working set. -/
def getBestSet (sets : List WorkoutSet) : Option WorkoutSet :=
  match workingSetsOf sets with
  | [] => none
  | s :: rest =>
    some (rest.foldl
      (fun best set =>
        if calculate1RM set.weight set.reps > calculate1RM best.weight best.reps then set
        else best) s)

/-- q is an exact multiple of 0.5. -/
def isHalfMultiple (q : ℚ) : Prop := ∃ k : ℤ, q = (k : ℚ) / 2

/-- The working sets are the completed sets among the non-warmup sets: the
engine reads its input only through these two filtered views. -/
theorem workingSetsOf_eq_filter (l : List WorkoutSet) :
    workingSetsOf l = (allSetsOf l).filter (fun s => s.completed) := by
  unfold workingSetsOf allSetsOf
  rw [List.filter_filter]
  apply List.filter_congr
  intro x _
  exact Bool.and_comm _ _

/-- C10: the dispatcher adds no behaviour of its own: progressionType
"triple" selects the triple strategy and every other value falls through to
the double strategy. -/
theorem c10_dispatcher_is_pure_selection (l : List WorkoutSet) (ex : Exercise) (u : String) :
    (ex.progressionType = "triple" →
      getProgressionSuggestion l ex u = getTripleProgressionSuggestion l ex u) ∧
    (ex.progressionType ≠ "triple" →
      getProgressionSuggestion l ex u = getDoubleProgressionSuggestion l ex u) := by
  constructor <;> intro h <;> simp [getProgressionSuggestion, h]

/-- A value of progressionType outside the declared enum, for exercising the
dispatcher fall-through. -/
def exOutsideEnum : Exercise := ⟨"dumbbell", 5, 8, 12, some 3, some 4⟩

theorem c10_dispatcher_is_pure_selection_witness :
    getProgressionSuggestion [] exOutsideEnum "kg" =
      getDoubleProgressionSuggestion [] exOutsideEnum "kg" :=
  (c10_dispatcher_is_pure_selection [] exOutsideEnum "kg").2 (by decide)

/-- C9: warmup sets never influence an engine output, and the volume and
best-set metrics are further unaffected by incomplete sets; with no working
sets the volume is 0 and there is no best set. -/
theorem c9_warmup_sets_never_influence (l₁ l₂ : List WorkoutSet) (ex : Exercise) (u : String) :
    (allSetsOf l₁ = allSetsOf l₂ →
      getProgressionSuggestion l₁ ex u = getProgressionSuggestion l₂ ex u ∧
      calculateVolume l₁ = calculateVolume l₂ ∧
      getBestSet l₁ = getBestSet l₂) ∧
    (workingSetsOf l₁ = workingSetsOf l₂ →
      calculateVolume l₁ = calculateVolume l₂ ∧
      getBestSet l₁ = getBestSet l₂) ∧
    (workingSetsOf l₁ = [] → calculateVolume l₁ = .num 0 ∧ getBestSet l₁ = none) := by
  refine ⟨fun h => ?_, fun h => ?_, fun h => ?_⟩
  · have hws : workingSetsOf l₁ = workingSetsOf l₂ := by
      rw [workingSetsOf_eq_filter, workingSetsOf_eq_filter, h]
    refine ⟨?_, ?_, ?_⟩
    · unfold getProgressionSuggestion getTripleProgressionSuggestion
        getDoubleProgressionSuggestion
      rw [h, hws]
    · unfold calculateVolume
      rw [hws]
    · unfold getBestSet
      rw [hws]
  · constructor
    · unfold calculateVolume
      rw [h]
    · unfold getBestSet
      rw [h]
  · constructor
    · unfold calculateVolume
      rw [h]
      rfl
    · unfold getBestSet
      rw [h]

theorem c9_warmup_sets_never_influence_witness :
    getProgressionSuggestion [⟨.num 40, .num 10, true, true⟩] exOutsideEnum "kg" =
      getProgressionSuggestion [] exOutsideEnum "kg" ∧
    calculateVolume [⟨.num 40, .num 10, true, true⟩] = .num 0 ∧
    getBestSet [⟨.num 40, .num 10, true, true⟩] = none :=
  ⟨((c9_warmup_sets_never_influence [⟨.num 40, .num 10, true, true⟩] [] exOutsideEnum "kg").1
      (by decide)).1,
   ((c9_warmup_sets_never_influence [⟨.num 40, .num 10, true, true⟩] [] exOutsideEnum "kg").2.2
      (by decide)).1,
   ((c9_warmup_sets_never_influence [⟨.num 40, .num 10, true, true⟩] [] exOutsideEnum "kg").2.2
      (by decide)).2⟩

/-- Double strategy, branch 1: no sets logged at all. -/
theorem doubleCore_no_data (ex : Exercise) (u : String) :
    doubleCore [] [] ex u =
      { action := .maintain
        message := "Start with a weight you can do for " ++ qStr ex.targetRepMin ++ " reps" } := by
  rfl

/-- Double strategy, branch 2: non-warmup sets exist but none completed. -/
theorem doubleCore_none_completed (allSets : List WorkoutSet) (ex : Exercise) (u : String)
    (h : allSets ≠ []) :
    doubleCore allSets [] ex u =
      { action := .maintain
        message := "No completed sets. Consider reducing the weight or taking more rest between sets" } := by
  simp only [doubleCore]
  rw [if_pos (List.length_nil (α := WorkoutSet)), if_pos (List.length_pos.mpr h)]

/-- Double strategy, branch 3: invalid data among the working sets. -/
theorem doubleCore_invalid (allSets ws : List WorkoutSet) (ex : Exercise) (u : String)
    (hne : ws ≠ []) (hinv : 0 < (getInvalidSets ws).length) :
    doubleCore allSets ws ex u =
      { action := .maintain
        message := "Invalid set data detected. Please check your logged weights and reps" } := by
  simp only [doubleCore]
  rw [if_neg (fun h0 => hne (List.length_eq_zero.mp h0)), if_pos hinv]

theorem length_ne_zero_of_ne_nil {ws : List WorkoutSet} (hne : ws ≠ []) : ¬ ws.length = 0 :=
  fun h0 => hne (List.length_eq_zero.mp h0)

theorem invalid_count_not_pos {ws : List WorkoutSet} (hval : getInvalidSets ws = []) :
    ¬ (getInvalidSets ws).length > 0 := by
  rw [hval]
  exact lt_irrefl 0

/-- Double strategy, branch 4: struggling, weight can still be reduced. -/
theorem doubleCore_reduce (allSets ws : List WorkoutSet) (ex : Exercise) (u : String)
    (hne : ws ≠ []) (hval : getInvalidSets ws = [])
    (havg : avgRepsOf ws < ex.targetRepMin / 2)
    (hnz : ¬ (max 0 (consensusWeightQ ws - ex.weightIncrement) = 0 ∧ consensusWeightQ ws = 0)) :
    doubleCore allSets ws ex u =
      { action := .reduce_weight
        newWeight := some (max 0 (consensusWeightQ ws - ex.weightIncrement))
        targetReps := some ex.targetRepMin
        message := "Weight too heavy (only " ++ qStr (avgRepsOf ws) ++ " reps avg). Reduce to "
          ++ qStr (max 0 (consensusWeightQ ws - ex.weightIncrement)) ++ u ++ " and aim for "
          ++ qStr ex.targetRepMin ++ " reps" } := by
  simp only [doubleCore]
  rw [if_neg (length_ne_zero_of_ne_nil hne), if_neg (invalid_count_not_pos hval),
    if_pos havg, if_neg hnz]

/-- Double strategy, branch 4 zero-floor: struggling at bodyweight zero. -/
theorem doubleCore_reduce_zero (allSets ws : List WorkoutSet) (ex : Exercise) (u : String)
    (hne : ws ≠ []) (hval : getInvalidSets ws = [])
    (havg : avgRepsOf ws < ex.targetRepMin / 2)
    (hz : max 0 (consensusWeightQ ws - ex.weightIncrement) = 0 ∧ consensusWeightQ ws = 0) :
    doubleCore allSets ws ex u =
      { action := .maintain, newWeight := some 0, targetReps := some ex.targetRepMin
        message := "Try a lighter variation or focus on form with bodyweight" } := by
  simp only [doubleCore]
  rw [if_neg (length_ne_zero_of_ne_nil hne), if_neg (invalid_count_not_pos hval),
    if_pos havg, if_pos hz]

/-- The output of the excess-volume branch of the double strategy. -/
def doubleExcess (ws : List WorkoutSet) (ex : Exercise) (u : String) : ProgressionSuggestion :=
  { action := .maintain, newWeight := some (consensusWeightQ ws)
    targetReps := some (avgRepsOf ws)
    message := "Too many sets (" ++ toString ws.length ++ "). Reduce to "
      ++ qStr (ex.targetSetsMax.getD 4) ++ " sets at " ++ qStr (consensusWeightQ ws) ++ u
      ++ " for better recovery" }

/-- Double strategy, branch 5: more working sets than targetSetsMax. -/
theorem doubleCore_excess (allSets ws : List WorkoutSet) (ex : Exercise) (u : String)
    (hne : ws ≠ []) (hval : getInvalidSets ws = [])
    (havg : ¬ avgRepsOf ws < ex.targetRepMin / 2)
    (hgt : (ws.length : ℚ) > ex.targetSetsMax.getD 4) :
    doubleCore allSets ws ex u = doubleExcess ws ex u := by
  simp only [doubleCore]
  rw [if_neg (length_ne_zero_of_ne_nil hne), if_neg (invalid_count_not_pos hval),
    if_neg havg, if_pos hgt]
  rfl

/-- Double strategy, branch 6a: all sets at max reps, far overshoot, positive
increment: double increment. -/
theorem doubleCore_aggressive (allSets ws : List WorkoutSet) (ex : Exercise) (u : String)
    (hne : ws ≠ []) (hval : getInvalidSets ws = [])
    (havg : ¬ avgRepsOf ws < ex.targetRepMin / 2)
    (hgt : ¬ (ws.length : ℚ) > ex.targetSetsMax.getD 4)
    (hall : (ws.all fun s => jsGe s.reps (JSVal.num ex.targetRepMax)) = true)
    (hover : avgRepsOf ws > ex.targetRepMax * (3 / 2) ∧ ex.weightIncrement > 0) :
    doubleCore allSets ws ex u =
      { action := .increase_weight
        newWeight := some (roundWeight (consensusWeightQ ws + ex.weightIncrement * 2))
        newReps := some ex.targetRepMin
        message := "Crushing it (" ++ qStr (avgRepsOf ws) ++ " reps avg)! Jump to "
          ++ qStr (roundWeight (consensusWeightQ ws + ex.weightIncrement * 2)) ++ u
          ++ " and aim for " ++ qStr ex.targetRepMin ++ " reps" } := by
  simp only [doubleCore]
  rw [if_neg (length_ne_zero_of_ne_nil hne), if_neg (invalid_count_not_pos hval),
    if_neg havg, if_neg hgt, if_pos hall, if_pos hover]

/-- Double strategy, branch 6b: all sets at max reps, zero increment
(bodyweight). -/
theorem doubleCore_bodyweight (allSets ws : List WorkoutSet) (ex : Exercise) (u : String)
    (hne : ws ≠ []) (hval : getInvalidSets ws = [])
    (havg : ¬ avgRepsOf ws < ex.targetRepMin / 2)
    (hgt : ¬ (ws.length : ℚ) > ex.targetSetsMax.getD 4)
    (hall : (ws.all fun s => jsGe s.reps (JSVal.num ex.targetRepMax)) = true)
    (hover : ¬ (avgRepsOf ws > ex.targetRepMax * (3 / 2) ∧ ex.weightIncrement > 0))
    (hz : ex.weightIncrement = 0) :
    doubleCore allSets ws ex u =
      { action := .maintain, newWeight := some (consensusWeightQ ws)
        targetReps := some ex.targetRepMax
        message := "Great form! Keep at " ++ qStr (consensusWeightQ ws) ++ u ++ " for "
          ++ qStr ex.targetRepMax ++ " reps (bodyweight exercise)" } := by
  simp only [doubleCore]
  rw [if_neg (length_ne_zero_of_ne_nil hne), if_neg (invalid_count_not_pos hval),
    if_neg havg, if_neg hgt, if_pos hall, if_neg hover, if_pos hz]

/-- Double strategy, branch 6c: all sets at max reps, nonzero increment:
normal increase (rounded when the increment is positive). -/
theorem doubleCore_increase (allSets ws : List WorkoutSet) (ex : Exercise) (u : String)
    (hne : ws ≠ []) (hval : getInvalidSets ws = [])
    (havg : ¬ avgRepsOf ws < ex.targetRepMin / 2)
    (hgt : ¬ (ws.length : ℚ) > ex.targetSetsMax.getD 4)
    (hall : (ws.all fun s => jsGe s.reps (JSVal.num ex.targetRepMax)) = true)
    (hover : ¬ (avgRepsOf ws > ex.targetRepMax * (3 / 2) ∧ ex.weightIncrement > 0))
    (hz : ¬ ex.weightIncrement = 0) :
    doubleCore allSets ws ex u =
      { action := .increase_weight
        newWeight := some (if ex.weightIncrement > 0
          then roundWeight (consensusWeightQ ws + ex.weightIncrement)
          else consensusWeightQ ws)
        newReps := some ex.targetRepMin
        message := "All sets hit " ++ qStr ex.targetRepMax ++ " reps! Increase weight to "
          ++ qStr (if ex.weightIncrement > 0
            then roundWeight (consensusWeightQ ws + ex.weightIncrement)
            else consensusWeightQ ws) ++ u
          ++ " and aim for " ++ qStr ex.targetRepMin ++ " reps" } := by
  simp only [doubleCore]
  rw [if_neg (length_ne_zero_of_ne_nil hne), if_neg (invalid_count_not_pos hval),
    if_neg havg, if_neg hgt, if_pos hall, if_neg hover, if_neg hz]

/-- Double strategy, branch 7: still progressing within the rep range. -/
theorem doubleCore_increase_reps (allSets ws : List WorkoutSet) (ex : Exercise) (u : String)
    (hne : ws ≠ []) (hval : getInvalidSets ws = [])
    (havg : ¬ avgRepsOf ws < ex.targetRepMin / 2)
    (hgt : ¬ (ws.length : ℚ) > ex.targetSetsMax.getD 4)
    (hall : ¬ (ws.all fun s => jsGe s.reps (JSVal.num ex.targetRepMax)) = true) :
    doubleCore allSets ws ex u =
      { action := .increase_reps, newWeight := some (consensusWeightQ ws)
        targetReps := some (min (avgRepsOf ws + 1) ex.targetRepMax)
        message := "Keep weight at " ++ qStr (consensusWeightQ ws) ++ u ++ " and aim for "
          ++ qStr (min (avgRepsOf ws + 1) ex.targetRepMax) ++ " reps per set" } := by
  simp only [doubleCore]
  rw [if_neg (length_ne_zero_of_ne_nil hne), if_neg (invalid_count_not_pos hval),
    if_neg havg, if_neg hgt, if_neg hall]

/-- Triple strategy, branch 1: no sets logged at all. -/
theorem tripleCore_no_data (ex : Exercise) (u : String) :
    tripleCore [] [] ex u =
      { action := .maintain, newSets := ex.targetSetsMin, newReps := some ex.targetRepMin
        message := "Start with " ++ optQStr ex.targetSetsMin ++ " sets of "
          ++ qStr ex.targetRepMin ++ " reps at a challenging weight" } := by
  rfl

/-- Triple strategy, branch 2: non-warmup sets exist but none completed. -/
theorem tripleCore_none_completed (allSets : List WorkoutSet) (ex : Exercise) (u : String)
    (h : allSets ≠ []) :
    tripleCore allSets [] ex u =
      { action := .maintain, newSets := ex.targetSetsMin, newReps := some ex.targetRepMin
        message := "No completed sets. Consider reducing the weight or taking more rest between sets" } := by
  simp only [tripleCore]
  rw [if_pos (List.length_nil (α := WorkoutSet)), if_pos (List.length_pos.mpr h)]

/-- Triple strategy, branch 3: invalid data among the working sets. -/
theorem tripleCore_invalid (allSets ws : List WorkoutSet) (ex : Exercise) (u : String)
    (hne : ws ≠ []) (hinv : 0 < (getInvalidSets ws).length) :
    tripleCore allSets ws ex u =
      { action := .maintain, newSets := ex.targetSetsMin
        message := "Invalid set data detected. Please check your logged weights and reps" } := by
  simp only [tripleCore]
  rw [if_neg (length_ne_zero_of_ne_nil hne), if_pos hinv]

/-- Triple strategy, branch 4: struggling, weight can still be reduced. -/
theorem tripleCore_reduce (allSets ws : List WorkoutSet) (ex : Exercise) (u : String)
    (hne : ws ≠ []) (hval : getInvalidSets ws = [])
    (havg : avgRepsOf ws < ex.targetRepMin / 2)
    (hnz : ¬ (max 0 (consensusWeightQ ws - ex.weightIncrement) = 0 ∧ consensusWeightQ ws = 0)) :
    tripleCore allSets ws ex u =
      { action := .reduce_weight
        newWeight := some (max 0 (consensusWeightQ ws - ex.weightIncrement))
        newSets := ex.targetSetsMin, targetReps := some ex.targetRepMin
        message := "Weight too heavy. Reduce to "
          ++ qStr (max 0 (consensusWeightQ ws - ex.weightIncrement)) ++ u ++ ", "
          ++ optQStr ex.targetSetsMin ++ " sets of " ++ qStr ex.targetRepMin ++ " reps" } := by
  simp only [tripleCore]
  rw [if_neg (length_ne_zero_of_ne_nil hne), if_neg (invalid_count_not_pos hval),
    if_pos havg, if_neg hnz]

/-- Triple strategy, branch 4 zero-floor: struggling at bodyweight zero. -/
theorem tripleCore_reduce_zero (allSets ws : List WorkoutSet) (ex : Exercise) (u : String)
    (hne : ws ≠ []) (hval : getInvalidSets ws = [])
    (havg : avgRepsOf ws < ex.targetRepMin / 2)
    (hz : max 0 (consensusWeightQ ws - ex.weightIncrement) = 0 ∧ consensusWeightQ ws = 0) :
    tripleCore allSets ws ex u =
      { action := .maintain, newSets := ex.targetSetsMin, targetReps := some ex.targetRepMin
        message := "Try a lighter variation or focus on form" } := by
  simp only [tripleCore]
  rw [if_neg (length_ne_zero_of_ne_nil hne), if_neg (invalid_count_not_pos hval),
    if_pos havg, if_pos hz]

/-- The output of the excess-volume branch of the triple strategy. -/
def tripleExcess (ws : List WorkoutSet) (ex : Exercise) (u : String) : ProgressionSuggestion :=
  { action := .maintain, newWeight := some (consensusWeightQ ws)
    newSets := ex.targetSetsMax, targetReps := some (avgRepsOf ws)
    message := "Too many sets (" ++ toString ws.length ++ "). Reduce to "
      ++ optQStr ex.targetSetsMax ++ " sets at " ++ qStr (consensusWeightQ ws) ++ u
      ++ " for better recovery" }

/-- Triple strategy, branch 5: more working sets than targetSetsMax. -/
theorem tripleCore_excess (allSets ws : List WorkoutSet) (ex : Exercise) (u : String)
    (hne : ws ≠ []) (hval : getInvalidSets ws = [])
    (havg : ¬ avgRepsOf ws < ex.targetRepMin / 2)
    (hgt : qGtOpt (ws.length : ℚ) ex.targetSetsMax = true) :
    tripleCore allSets ws ex u = tripleExcess ws ex u := by
  simp only [tripleCore]
  rw [if_neg (length_ne_zero_of_ne_nil hne), if_neg (invalid_count_not_pos hval),
    if_neg havg, if_pos hgt]
  rfl

/-- Triple strategy, branch 6a: all sets at max reps, room for another set:
add exactly one set. -/
theorem tripleCore_add_set (allSets ws : List WorkoutSet) (ex : Exercise) (u : String)
    (hne : ws ≠ []) (hval : getInvalidSets ws = [])
    (havg : ¬ avgRepsOf ws < ex.targetRepMin / 2)
    (hgt : ¬ qGtOpt (ws.length : ℚ) ex.targetSetsMax = true)
    (hall : (ws.all fun s => jsGe s.reps (JSVal.num ex.targetRepMax)) = true)
    (hlt : qLtOpt (ws.length : ℚ) ex.targetSetsMax = true) :
    tripleCore allSets ws ex u =
      { action := .add_set, newWeight := some (consensusWeightQ ws)
        newSets := some ((ws.length + 1 : ℕ) : ℚ), newReps := some ex.targetRepMin
        message := "Great job hitting " ++ qStr ex.targetRepMax
          ++ " reps on all sets! Add a set (" ++ toString (ws.length + 1)
          ++ " total) and drop back to " ++ qStr ex.targetRepMin ++ " reps" } := by
  simp only [tripleCore]
  rw [if_neg (length_ne_zero_of_ne_nil hne), if_neg (invalid_count_not_pos hval),
    if_neg havg, if_neg hgt, if_pos hall, if_pos hlt]

/-- Triple strategy, branch 6b: at max sets, far overshoot, positive
increment: double increment. -/
theorem tripleCore_aggressive (allSets ws : List WorkoutSet) (ex : Exercise) (u : String)
    (hne : ws ≠ []) (hval : getInvalidSets ws = [])
    (havg : ¬ avgRepsOf ws < ex.targetRepMin / 2)
    (hgt : ¬ qGtOpt (ws.length : ℚ) ex.targetSetsMax = true)
    (hall : (ws.all fun s => jsGe s.reps (JSVal.num ex.targetRepMax)) = true)
    (hlt : ¬ qLtOpt (ws.length : ℚ) ex.targetSetsMax = true)
    (hover : avgRepsOf ws > ex.targetRepMax * (3 / 2) ∧ ex.weightIncrement > 0) :
    tripleCore allSets ws ex u =
      { action := .increase_weight
        newWeight := some (roundWeight (consensusWeightQ ws + ex.weightIncrement * 2))
        newSets := ex.targetSetsMin, newReps := some ex.targetRepMin
        message := "Crushing it (" ++ qStr (avgRepsOf ws) ++ " reps avg)! Jump to "
          ++ qStr (roundWeight (consensusWeightQ ws + ex.weightIncrement * 2)) ++ u ++ ", "
          ++ optQStr ex.targetSetsMin ++ " sets of " ++ qStr ex.targetRepMin ++ " reps" } := by
  simp only [tripleCore]
  rw [if_neg (length_ne_zero_of_ne_nil hne), if_neg (invalid_count_not_pos hval),
    if_neg havg, if_neg hgt, if_pos hall, if_neg hlt, if_pos hover]

/-- Triple strategy, branch 6b zero increment: bodyweight plateau. -/
theorem tripleCore_bodyweight (allSets ws : List WorkoutSet) (ex : Exercise) (u : String)
    (hne : ws ≠ []) (hval : getInvalidSets ws = [])
    (havg : ¬ avgRepsOf ws < ex.targetRepMin / 2)
    (hgt : ¬ qGtOpt (ws.length : ℚ) ex.targetSetsMax = true)
    (hall : (ws.all fun s => jsGe s.reps (JSVal.num ex.targetRepMax)) = true)
    (hlt : ¬ qLtOpt (ws.length : ℚ) ex.targetSetsMax = true)
    (hover : ¬ (avgRepsOf ws > ex.targetRepMax * (3 / 2) ∧ ex.weightIncrement > 0))
    (hz : ex.weightIncrement = 0) :
    tripleCore allSets ws ex u =
      { action := .maintain, newWeight := some (consensusWeightQ ws)
        newSets := ex.targetSetsMax, targetReps := some ex.targetRepMax
        message := "Great form! Keep at " ++ qStr (consensusWeightQ ws) ++ u ++ " for "
          ++ optQStr ex.targetSetsMax ++ " sets of " ++ qStr ex.targetRepMax
          ++ " reps (bodyweight exercise)" } := by
  simp only [tripleCore]
  rw [if_neg (length_ne_zero_of_ne_nil hne), if_neg (invalid_count_not_pos hval),
    if_neg havg, if_neg hgt, if_pos hall, if_neg hlt, if_neg hover, if_pos hz]

/-- Triple strategy, branch 6b normal: increase weight, reset sets and reps. -/
theorem tripleCore_increase (allSets ws : List WorkoutSet) (ex : Exercise) (u : String)
    (hne : ws ≠ []) (hval : getInvalidSets ws = [])
    (havg : ¬ avgRepsOf ws < ex.targetRepMin / 2)
    (hgt : ¬ qGtOpt (ws.length : ℚ) ex.targetSetsMax = true)
    (hall : (ws.all fun s => jsGe s.reps (JSVal.num ex.targetRepMax)) = true)
    (hlt : ¬ qLtOpt (ws.length : ℚ) ex.targetSetsMax = true)
    (hover : ¬ (avgRepsOf ws > ex.targetRepMax * (3 / 2) ∧ ex.weightIncrement > 0))
    (hz : ¬ ex.weightIncrement = 0) :
    tripleCore allSets ws ex u =
      { action := .increase_weight
        newWeight := some (roundWeight (consensusWeightQ ws + ex.weightIncrement))
        newSets := ex.targetSetsMin, newReps := some ex.targetRepMin
        message := "Maxed out! Increase weight to "
          ++ qStr (roundWeight (consensusWeightQ ws + ex.weightIncrement)) ++ u ++ ", reset to "
          ++ optQStr ex.targetSetsMin ++ " sets of " ++ qStr ex.targetRepMin ++ " reps" } := by
  simp only [tripleCore]
  rw [if_neg (length_ne_zero_of_ne_nil hne), if_neg (invalid_count_not_pos hval),
    if_neg havg, if_neg hgt, if_pos hall, if_neg hlt, if_neg hover, if_neg hz]

/-- Triple strategy, branch 7: still progressing within the rep range. -/
theorem tripleCore_increase_reps (allSets ws : List WorkoutSet) (ex : Exercise) (u : String)
    (hne : ws ≠ []) (hval : getInvalidSets ws = [])
    (havg : ¬ avgRepsOf ws < ex.targetRepMin / 2)
    (hgt : ¬ qGtOpt (ws.length : ℚ) ex.targetSetsMax = true)
    (hall : ¬ (ws.all fun s => jsGe s.reps (JSVal.num ex.targetRepMax)) = true) :
    tripleCore allSets ws ex u =
      { action := .increase_reps, newWeight := some (consensusWeightQ ws)
        newSets := some ((ws.length : ℕ) : ℚ)
        targetReps := some (min (avgRepsOf ws + 1) ex.targetRepMax)
        message := "Keep weight at " ++ qStr (consensusWeightQ ws) ++ u ++ " with "
          ++ toString ws.length ++ " sets, aim for "
          ++ qStr (min (avgRepsOf ws + 1) ex.targetRepMax) ++ " reps" } := by
  simp only [tripleCore]
  rw [if_neg (length_ne_zero_of_ne_nil hne), if_neg (invalid_count_not_pos hval),
    if_neg havg, if_neg hgt, if_neg hall]

/-- C3: the engine is a total function (this embedding returns a
ProgressionSuggestion on every input by construction), and each of the three
anomalous-input cases - nothing logged, nothing completed, or invalid numeric
data among the completed working sets - yields action maintain with no weight
or rep recommendation taken from the sets (the only populated numeric fields
come from the exercise configuration). -/
theorem c3_anomalous_inputs_maintain (l : List WorkoutSet) (ex : Exercise) (u : String) :
    (l = [] →
      (getProgressionSuggestion l ex u).action = .maintain ∧
      (getProgressionSuggestion l ex u).newWeight = none ∧
      (getProgressionSuggestion l ex u).targetReps = none ∧
      ((getProgressionSuggestion l ex u).newReps = none ∨
        (getProgressionSuggestion l ex u).newReps = some ex.targetRepMin) ∧
      ((getProgressionSuggestion l ex u).newSets = none ∨
        (getProgressionSuggestion l ex u).newSets = ex.targetSetsMin)) ∧
    (allSetsOf l ≠ [] ∧ workingSetsOf l = [] →
      (getProgressionSuggestion l ex u).action = .maintain ∧
      (getProgressionSuggestion l ex u).newWeight = none ∧
      (getProgressionSuggestion l ex u).targetReps = none ∧
      ((getProgressionSuggestion l ex u).newReps = none ∨
        (getProgressionSuggestion l ex u).newReps = some ex.targetRepMin) ∧
      ((getProgressionSuggestion l ex u).newSets = none ∨
        (getProgressionSuggestion l ex u).newSets = ex.targetSetsMin)) ∧
    ((∃ s ∈ workingSetsOf l, isInvalidSet s = true) →
      (getProgressionSuggestion l ex u).action = .maintain ∧
      (getProgressionSuggestion l ex u).newWeight = none ∧
      (getProgressionSuggestion l ex u).targetReps = none ∧
      ((getProgressionSuggestion l ex u).newReps = none ∨
        (getProgressionSuggestion l ex u).newReps = some ex.targetRepMin) ∧
      ((getProgressionSuggestion l ex u).newSets = none ∨
        (getProgressionSuggestion l ex u).newSets = ex.targetSetsMin)) := by
  unfold getProgressionSuggestion getTripleProgressionSuggestion getDoubleProgressionSuggestion
  refine ⟨fun hl => ?_, fun h => ?_, fun h => ?_⟩
  · subst hl
    by_cases ht : ex.progressionType = "triple"
    · rw [if_pos ht]
      rw [show allSetsOf ([] : List WorkoutSet) = [] from rfl,
        show workingSetsOf ([] : List WorkoutSet) = [] from rfl, tripleCore_no_data]
      simp
    · rw [if_neg ht]
      rw [show allSetsOf ([] : List WorkoutSet) = [] from rfl,
        show workingSetsOf ([] : List WorkoutSet) = [] from rfl, doubleCore_no_data]
      simp
  · obtain ⟨ha, hw⟩ := h
    by_cases ht : ex.progressionType = "triple"
    · rw [if_pos ht, hw, tripleCore_none_completed _ _ _ ha]
      simp
    · rw [if_neg ht, hw, doubleCore_none_completed _ _ _ ha]
      simp
  · obtain ⟨s, hs, hbad⟩ := h
    have hne : workingSetsOf l ≠ [] := List.ne_nil_of_mem hs
    have hinv : 0 < (getInvalidSets (workingSetsOf l)).length := by
      apply List.length_pos.mpr
      apply List.ne_nil_of_mem (a := s)
      unfold getInvalidSets
      exact List.mem_filter.mpr ⟨hs, hbad⟩
    by_cases ht : ex.progressionType = "triple"
    · rw [if_pos ht, tripleCore_invalid _ _ _ _ hne hinv]
      simp
    · rw [if_neg ht, doubleCore_invalid _ _ _ _ hne hinv]
      simp

theorem c3_anomalous_inputs_maintain_witness :
    (getProgressionSuggestion [⟨.nan, .num 8, false, true⟩] exOutsideEnum "kg").action =
      SuggestionAction.maintain :=
  ((c3_anomalous_inputs_maintain [⟨.nan, .num 8, false, true⟩] exOutsideEnum "kg").2.2
    ⟨⟨.nan, .num 8, false, true⟩, by decide, by decide⟩).1

/-- C5: in the double strategy on valid working sets, reduce_weight is
governed by the strict struggling inequality: it implies the rounded average
is strictly below targetRepMin / 2 and carries newWeight =
max(0, consensus - increment); the zero-floor case switches to maintain; and
an average of exactly targetRepMin / 2 lands in increase_reps when the later
branches do not fire. -/
theorem c5_double_struggling_boundary (l : List WorkoutSet) (ex : Exercise) (u : String)
    (hne : workingSetsOf l ≠ []) (hval : getInvalidSets (workingSetsOf l) = []) :
    ((getDoubleProgressionSuggestion l ex u).action = .reduce_weight →
      avgRepsOf (workingSetsOf l) < ex.targetRepMin / 2 ∧
      (getDoubleProgressionSuggestion l ex u).newWeight =
        some (max 0 (consensusWeightQ (workingSetsOf l) - ex.weightIncrement))) ∧
    (avgRepsOf (workingSetsOf l) < ex.targetRepMin / 2 →
      max 0 (consensusWeightQ (workingSetsOf l) - ex.weightIncrement) = 0 →
      consensusWeightQ (workingSetsOf l) = 0 →
      (getDoubleProgressionSuggestion l ex u).action = .maintain) ∧
    (avgRepsOf (workingSetsOf l) = ex.targetRepMin / 2 →
      ¬ ((workingSetsOf l).length : ℚ) > ex.targetSetsMax.getD 4 →
      ¬ ((workingSetsOf l).all fun s => jsGe s.reps (JSVal.num ex.targetRepMax)) = true →
      (getDoubleProgressionSuggestion l ex u).action = .increase_reps ∧
      (getDoubleProgressionSuggestion l ex u).action ≠ .reduce_weight) := by
  unfold getDoubleProgressionSuggestion
  refine ⟨fun hra => ?_, fun havg hz0 hw0 => ?_, fun heq hgt hall => ?_⟩
  · by_cases havg : avgRepsOf (workingSetsOf l) < ex.targetRepMin / 2
    · by_cases hz :
        max 0 (consensusWeightQ (workingSetsOf l) - ex.weightIncrement) = 0 ∧
          consensusWeightQ (workingSetsOf l) = 0
      · rw [doubleCore_reduce_zero _ _ _ _ hne hval havg hz] at hra
        simp at hra
      · rw [doubleCore_reduce _ _ _ _ hne hval havg hz]
        exact ⟨havg, rfl⟩
    · exfalso
      by_cases hgt : ((workingSetsOf l).length : ℚ) > ex.targetSetsMax.getD 4
      · rw [doubleCore_excess _ _ _ _ hne hval havg hgt] at hra
        simp [doubleExcess] at hra
      · by_cases hall :
          ((workingSetsOf l).all fun s => jsGe s.reps (JSVal.num ex.targetRepMax)) = true
        · by_cases hover :
            avgRepsOf (workingSetsOf l) > ex.targetRepMax * (3 / 2) ∧ ex.weightIncrement > 0
          · rw [doubleCore_aggressive _ _ _ _ hne hval havg hgt hall hover] at hra
            simp at hra
          · by_cases hz : ex.weightIncrement = 0
            · rw [doubleCore_bodyweight _ _ _ _ hne hval havg hgt hall hover hz] at hra
              simp at hra
            · rw [doubleCore_increase _ _ _ _ hne hval havg hgt hall hover hz] at hra
              simp at hra
        · rw [doubleCore_increase_reps _ _ _ _ hne hval havg hgt hall] at hra
          simp at hra
  · rw [doubleCore_reduce_zero _ _ _ _ hne hval havg ⟨hz0, hw0⟩]
  · have havg : ¬ avgRepsOf (workingSetsOf l) < ex.targetRepMin / 2 := by
      rw [heq]
      exact lt_irrefl _
    rw [doubleCore_increase_reps _ _ _ _ hne hval havg hgt hall]
    exact ⟨rfl, by simp⟩

/-- Three completed sets averaging exactly half of targetRepMin 8. -/
def c5sets : List WorkoutSet :=
  [⟨.num 60, .num 4, false, true⟩, ⟨.num 60, .num 4, false, true⟩,
   ⟨.num 60, .num 4, false, true⟩]

/-- A double-progression configuration with rep range 8-12 and increment 5. -/
def exDoubleStd : Exercise := ⟨"double", 5, 8, 12, some 3, some 4⟩

theorem c5_double_struggling_boundary_witness :
    (getDoubleProgressionSuggestion c5sets exDoubleStd "kg").action = .increase_reps ∧
    (getDoubleProgressionSuggestion c5sets exDoubleStd "kg").action ≠ .reduce_weight :=
  (c5_double_struggling_boundary c5sets exDoubleStd "kg" (by decide) (by decide)).2.2
    (by
      have h : workingSetsOf c5sets = c5sets := by decide
      rw [h]
      simp only [avgRepsOf, c5sets, exDoubleStd, List.map_cons, List.map_nil, JSVal.toQ,
        List.sum_cons, List.sum_nil, List.length_cons, List.length_nil, jsRound]
      norm_num)
    (by
      have h : workingSetsOf c5sets = c5sets := by decide
      rw [h]
      simp only [c5sets, exDoubleStd, List.length_cons, List.length_nil, Option.getD]
      norm_num)
    (by decide)

/-- C6: in the triple strategy, when every valid working set reaches
targetRepMax, the set count is strictly below targetSetsMax, and the
struggling branch does not apply (the excess branch cannot, below the max),
the suggestion adds exactly one set, resets reps to targetRepMin and keeps
the consensus weight. -/
theorem c6_triple_adds_exactly_one_set (l : List WorkoutSet) (ex : Exercise) (u : String)
    (smax : ℚ) (hne : workingSetsOf l ≠ []) (hval : getInvalidSets (workingSetsOf l) = [])
    (hmax : ex.targetSetsMax = some smax)
    (hall : ∀ s ∈ workingSetsOf l, jsGe s.reps (JSVal.num ex.targetRepMax) = true)
    (hlt : ((workingSetsOf l).length : ℚ) < smax)
    (hnost : ¬ avgRepsOf (workingSetsOf l) < ex.targetRepMin / 2) :
    (getTripleProgressionSuggestion l ex u).action = .add_set ∧
    (getTripleProgressionSuggestion l ex u).newSets =
      some (((workingSetsOf l).length : ℚ) + 1) ∧
    (getTripleProgressionSuggestion l ex u).newReps = some ex.targetRepMin ∧
    (getTripleProgressionSuggestion l ex u).newWeight =
      some (consensusWeightQ (workingSetsOf l)) := by
  unfold getTripleProgressionSuggestion
  have hgt : ¬ qGtOpt ((workingSetsOf l).length : ℚ) ex.targetSetsMax = true := by
    rw [hmax]
    simp only [qGtOpt, decide_eq_true_eq]
    exact lt_asymm hlt
  have hlt' : qLtOpt ((workingSetsOf l).length : ℚ) ex.targetSetsMax = true := by
    rw [hmax]
    simp only [qLtOpt, decide_eq_true_eq]
    exact hlt
  have hallb : ((workingSetsOf l).all fun s => jsGe s.reps (JSVal.num ex.targetRepMax)) = true :=
    List.all_eq_true.mpr hall
  rw [tripleCore_add_set _ _ _ _ hne hval hnost hgt hallb hlt']
  refine ⟨rfl, ?_, rfl, rfl⟩
  simp [Nat.cast_add]

/-- Two completed sets of 12 reps at 50, for the triple set-escalation
witness. -/
def c6sets : List WorkoutSet :=
  [⟨.num 50, .num 12, false, true⟩, ⟨.num 50, .num 12, false, true⟩]

/-- A triple-progression configuration with rep range 8-12, set range 2-4,
increment 10. -/
def exTripleStd : Exercise := ⟨"triple", 10, 8, 12, some 2, some 4⟩

theorem c6_triple_adds_exactly_one_set_witness :
    (getTripleProgressionSuggestion c6sets exTripleStd "kg").action = .add_set ∧
    (getTripleProgressionSuggestion c6sets exTripleStd "kg").newSets =
      some (((workingSetsOf c6sets).length : ℚ) + 1) :=
  ⟨(c6_triple_adds_exactly_one_set c6sets exTripleStd "kg" 4 (by decide) (by decide) rfl
      (by decide)
      (by
        have h : workingSetsOf c6sets = c6sets := by decide
        rw [h]
        simp only [c6sets, List.length_cons, List.length_nil]
        norm_num)
      (by
        have h : workingSetsOf c6sets = c6sets := by decide
        rw [h]
        simp only [avgRepsOf, c6sets, exTripleStd, List.map_cons, List.map_nil, JSVal.toQ,
          List.sum_cons, List.sum_nil, List.length_cons, List.length_nil, jsRound]
        norm_num)).1,
   (c6_triple_adds_exactly_one_set c6sets exTripleStd "kg" 4 (by decide) (by decide) rfl
      (by decide)
      (by
        have h : workingSetsOf c6sets = c6sets := by decide
        rw [h]
        simp only [c6sets, List.length_cons, List.length_nil]
        norm_num)
      (by
        have h : workingSetsOf c6sets = c6sets := by decide
        rw [h]
        simp only [avgRepsOf, c6sets, exTripleStd, List.map_cons, List.map_nil, JSVal.toQ,
          List.sum_cons, List.sum_nil, List.length_cons, List.length_nil, jsRound]
        norm_num)).2.1⟩

/-- Five completed sets of 20 reps at 20: every overshoot condition of C7
holds, yet the set count exceeds targetSetsMax. -/
def c7sets : List WorkoutSet :=
  [⟨.num 20, .num 20, false, true⟩, ⟨.num 20, .num 20, false, true⟩,
   ⟨.num 20, .num 20, false, true⟩, ⟨.num 20, .num 20, false, true⟩,
   ⟨.num 20, .num 20, false, true⟩]

/-- C7 counterexample: with five valid sets of 20 reps (all at or above
targetRepMax 12, rounded average 20 > 18, increment 5 > 0) the double
strategy returns maintain - the excess-sets branch preempts the overshoot
branch, so the claim as stated fails. -/
theorem c7_counterexample_excess_preempts :
    (∀ s ∈ workingSetsOf c7sets, jsGe s.reps (JSVal.num exDoubleStd.targetRepMax) = true) ∧
    avgRepsOf (workingSetsOf c7sets) > exDoubleStd.targetRepMax * (3 / 2) ∧
    exDoubleStd.weightIncrement > 0 ∧
    (getDoubleProgressionSuggestion c7sets exDoubleStd "kg").action = .maintain ∧
    (getDoubleProgressionSuggestion c7sets exDoubleStd "kg").action ≠ .increase_weight := by
  have hws : workingSetsOf c7sets = c7sets := by decide
  have havg : avgRepsOf (workingSetsOf c7sets) = 20 := by
    rw [hws]
    simp only [avgRepsOf, c7sets, List.map_cons, List.map_nil, JSVal.toQ, List.sum_cons,
      List.sum_nil, List.length_cons, List.length_nil, jsRound]
    norm_num
  have hnost : ¬ avgRepsOf (workingSetsOf c7sets) < exDoubleStd.targetRepMin / 2 := by
    rw [havg]
    simp only [exDoubleStd]
    norm_num
  have hgt : ((workingSetsOf c7sets).length : ℚ) > exDoubleStd.targetSetsMax.getD 4 := by
    rw [hws]
    simp only [c7sets, List.length_cons, List.length_nil, exDoubleStd, Option.getD]
    norm_num
  have hres := doubleCore_excess (allSetsOf c7sets) (workingSetsOf c7sets) exDoubleStd "kg"
    (by decide) (by decide) hnost hgt
  refine ⟨by decide, ?_, by decide, ?_, ?_⟩
  · rw [havg]
    simp only [exDoubleStd]
    norm_num
  · show (doubleCore (allSetsOf c7sets) (workingSetsOf c7sets) exDoubleStd "kg").action = _
    rw [hres]
    rfl
  · show (doubleCore (allSetsOf c7sets) (workingSetsOf c7sets) exDoubleStd "kg").action ≠ _
    rw [hres]
    simp [doubleExcess]

/-- C7 amended: the overshoot rule additionally requires that the working-set
count does not exceed targetSetsMax (else the excess branch fires first);
with that proviso - and for any configuration with targetRepMin at most three
times targetRepMax, which makes the struggling branch unreachable - the
double strategy increases weight by double the increment, rounded, and resets
reps to targetRepMin. -/
theorem c7_double_overshoot_amended (l : List WorkoutSet) (ex : Exercise) (u : String)
    (hne : workingSetsOf l ≠ []) (hval : getInvalidSets (workingSetsOf l) = [])
    (hall : ∀ s ∈ workingSetsOf l, jsGe s.reps (JSVal.num ex.targetRepMax) = true)
    (hover : avgRepsOf (workingSetsOf l) > ex.targetRepMax * (3 / 2))
    (hinc : ex.weightIncrement > 0)
    (hsets : ¬ ((workingSetsOf l).length : ℚ) > ex.targetSetsMax.getD 4)
    (hcfg : ex.targetRepMin ≤ 3 * ex.targetRepMax) :
    (getDoubleProgressionSuggestion l ex u).action = .increase_weight ∧
    (getDoubleProgressionSuggestion l ex u).newWeight =
      some (roundWeight (consensusWeightQ (workingSetsOf l) + ex.weightIncrement * 2)) ∧
    (getDoubleProgressionSuggestion l ex u).newReps = some ex.targetRepMin := by
  unfold getDoubleProgressionSuggestion
  have hnost : ¬ avgRepsOf (workingSetsOf l) < ex.targetRepMin / 2 :=
    not_lt.mpr (le_of_lt (by linarith))
  rw [doubleCore_aggressive _ _ _ _ hne hval hnost hsets (List.all_eq_true.mpr hall)
    ⟨hover, hinc⟩]
  exact ⟨rfl, rfl, rfl⟩

/-- Three completed sets of 20 reps at 20, the in-range overshoot scenario. -/
def c7sets3 : List WorkoutSet :=
  [⟨.num 20, .num 20, false, true⟩, ⟨.num 20, .num 20, false, true⟩,
   ⟨.num 20, .num 20, false, true⟩]

theorem c7_double_overshoot_amended_witness :
    (getDoubleProgressionSuggestion c7sets3 exDoubleStd "kg").action = .increase_weight ∧
    (getDoubleProgressionSuggestion c7sets3 exDoubleStd "kg").newWeight = some 30 := by
  have hws : workingSetsOf c7sets3 = c7sets3 := by decide
  have h := c7_double_overshoot_amended c7sets3 exDoubleStd "kg" (by decide) (by decide)
    (by decide)
    (by
      rw [hws]
      simp only [avgRepsOf, c7sets3, exDoubleStd, List.map_cons, List.map_nil, JSVal.toQ,
        List.sum_cons, List.sum_nil, List.length_cons, List.length_nil, jsRound]
      norm_num)
    (by
      simp only [exDoubleStd]
      norm_num)
    (by
      rw [hws]
      simp only [c7sets3, List.length_cons, List.length_nil, exDoubleStd, Option.getD]
      norm_num)
    (by
      simp only [exDoubleStd]
      norm_num)
  refine ⟨h.1, h.2.1.trans ?_⟩
  have hcw : consensusWeightQ (workingSetsOf c7sets3) = 20 := by decide
  rw [hcw]
  simp only [roundWeight, jsRound, exDoubleStd]
  norm_num

/-- Every roundWeight output is an exact multiple of 0.5. -/
theorem isHalfMultiple_roundWeight (x : ℚ) : isHalfMultiple (roundWeight x) :=
  ⟨⌊x / (1 / 2) + 1 / 2⌋, by unfold roundWeight jsRound; ring⟩

/-- One completed valid set at the fractional weight 50.3. -/
def c1sets : List WorkoutSet := [⟨.num (503 / 10), .num 1, false, true⟩]

/-- C1 counterexample: a struggling session logged at 50.3 with increment 5
returns reduce_weight with newWeight 45.3, which is not a multiple of 0.5 -
the source applies no rounding on the reduce_weight path. -/
theorem c1_counterexample_reduce_unrounded :
    (getDoubleProgressionSuggestion c1sets exDoubleStd "kg").action = .reduce_weight ∧
    (getDoubleProgressionSuggestion c1sets exDoubleStd "kg").newWeight = some (453 / 10) ∧
    ¬ isHalfMultiple (453 / 10) := by
  have hws : workingSetsOf c1sets = c1sets := rfl
  have hinv1 : isInvalidSet ⟨.num (503 / 10), .num 1, false, true⟩ = false := by
    simp only [isInvalidSet, JSVal.isFinite, JSVal.isNeg, Bool.not_true, Bool.false_or,
      Bool.or_eq_false_iff, decide_eq_false_iff_not]
    norm_num
  have hval : getInvalidSets (workingSetsOf c1sets) = [] := by
    rw [hws]
    simp [getInvalidSets, c1sets, List.filter_cons, hinv1]
  have havg : avgRepsOf (workingSetsOf c1sets) < exDoubleStd.targetRepMin / 2 := by
    rw [hws]
    simp only [avgRepsOf, c1sets, exDoubleStd, List.map_cons, List.map_nil, JSVal.toQ,
      List.sum_cons, List.sum_nil, List.length_cons, List.length_nil, jsRound]
    norm_num
  have hcw : consensusWeightQ (workingSetsOf c1sets) = 503 / 10 := rfl
  have hnz : ¬ (max 0 (consensusWeightQ (workingSetsOf c1sets) - exDoubleStd.weightIncrement) = 0 ∧
      consensusWeightQ (workingSetsOf c1sets) = 0) := by
    rw [hcw]
    simp only [exDoubleStd, not_and]
    intro h
    norm_num
  have hres := doubleCore_reduce (allSetsOf c1sets) (workingSetsOf c1sets) exDoubleStd "kg"
    (by rw [hws]; simp [c1sets]) hval havg hnz
  refine ⟨?_, ?_, ?_⟩
  · show (doubleCore (allSetsOf c1sets) (workingSetsOf c1sets) exDoubleStd "kg").action = _
    rw [hres]
  · show (doubleCore (allSetsOf c1sets) (workingSetsOf c1sets) exDoubleStd "kg").newWeight = _
    rw [hres]
    show some (max 0 (consensusWeightQ (workingSetsOf c1sets) - exDoubleStd.weightIncrement)) = _
    rw [hcw]
    simp only [exDoubleStd]
    norm_num
  · rintro ⟨k, hk⟩
    have h906 : (906 : ℚ) = (k : ℚ) * 10 := by
      field_simp at hk
      linarith
    have h906z : (906 : ℤ) = k * 10 := by exact_mod_cast h906
    omega

/-- C1 amended: on any configuration with a non-negative increment (the data
model range), every increase_weight result carries a newWeight that is an
exact multiple of 0.5 (it always passes through roundWeight), while every
reduce_weight result carries the unrounded max(0, consensus - increment) -
the source rounds increases but not decreases. -/
theorem c1_rounding_amended (l : List WorkoutSet) (ex : Exercise) (u : String)
    (hinc : 0 ≤ ex.weightIncrement) :
    ((∀ q, (getDoubleProgressionSuggestion l ex u).action = .increase_weight →
        (getDoubleProgressionSuggestion l ex u).newWeight = some q → isHalfMultiple q) ∧
      ((getDoubleProgressionSuggestion l ex u).action = .reduce_weight →
        (getDoubleProgressionSuggestion l ex u).newWeight =
          some (max 0 (consensusWeightQ (workingSetsOf l) - ex.weightIncrement)))) ∧
    ((∀ q, (getTripleProgressionSuggestion l ex u).action = .increase_weight →
        (getTripleProgressionSuggestion l ex u).newWeight = some q → isHalfMultiple q) ∧
      ((getTripleProgressionSuggestion l ex u).action = .reduce_weight →
        (getTripleProgressionSuggestion l ex u).newWeight =
          some (max 0 (consensusWeightQ (workingSetsOf l) - ex.weightIncrement)))) := by
  constructor
  · unfold getDoubleProgressionSuggestion
    by_cases h0 : workingSetsOf l = []
    · by_cases ha0 : allSetsOf l = []
      · rw [h0, ha0, doubleCore_no_data]
        exact ⟨fun q ha hw => absurd ha (by simp [doubleExcess, tripleExcess]), fun ha => absurd ha (by simp [doubleExcess, tripleExcess])⟩
      · rw [h0, doubleCore_none_completed _ _ _ ha0]
        exact ⟨fun q ha hw => absurd ha (by simp [doubleExcess, tripleExcess]), fun ha => absurd ha (by simp [doubleExcess, tripleExcess])⟩
    · by_cases hv : 0 < (getInvalidSets (workingSetsOf l)).length
      · rw [doubleCore_invalid _ _ _ _ h0 hv]
        exact ⟨fun q ha hw => absurd ha (by simp [doubleExcess, tripleExcess]), fun ha => absurd ha (by simp [doubleExcess, tripleExcess])⟩
      · have hval : getInvalidSets (workingSetsOf l) = [] :=
          List.length_eq_zero.mp (Nat.eq_zero_of_not_pos hv)
        by_cases hs : avgRepsOf (workingSetsOf l) < ex.targetRepMin / 2
        · by_cases hz : max 0 (consensusWeightQ (workingSetsOf l) - ex.weightIncrement) = 0 ∧
              consensusWeightQ (workingSetsOf l) = 0
          · rw [doubleCore_reduce_zero _ _ _ _ h0 hval hs hz]
            exact ⟨fun q ha hw => absurd ha (by simp [doubleExcess, tripleExcess]), fun ha => absurd ha (by simp [doubleExcess, tripleExcess])⟩
          · rw [doubleCore_reduce _ _ _ _ h0 hval hs hz]
            exact ⟨fun q ha hw => absurd ha (by simp [doubleExcess, tripleExcess]), fun ha => rfl⟩
        · by_cases hgt : ((workingSetsOf l).length : ℚ) > ex.targetSetsMax.getD 4
          · rw [doubleCore_excess _ _ _ _ h0 hval hs hgt]
            exact ⟨fun q ha hw => absurd ha (by simp [doubleExcess, tripleExcess]), fun ha => absurd ha (by simp [doubleExcess, tripleExcess])⟩
          · by_cases hall :
              ((workingSetsOf l).all fun s => jsGe s.reps (JSVal.num ex.targetRepMax)) = true
            · by_cases hov : avgRepsOf (workingSetsOf l) > ex.targetRepMax * (3 / 2) ∧
                  ex.weightIncrement > 0
              · rw [doubleCore_aggressive _ _ _ _ h0 hval hs hgt hall hov]
                refine ⟨fun q ha hw => ?_, fun ha => absurd ha (by simp [doubleExcess, tripleExcess])⟩
                rw [Option.some_inj] at hw
                subst hw
                exact isHalfMultiple_roundWeight _
              · by_cases hz0 : ex.weightIncrement = 0
                · rw [doubleCore_bodyweight _ _ _ _ h0 hval hs hgt hall hov hz0]
                  exact ⟨fun q ha hw => absurd ha (by simp [doubleExcess, tripleExcess]), fun ha => absurd ha (by simp [doubleExcess, tripleExcess])⟩
                · rw [doubleCore_increase _ _ _ _ h0 hval hs hgt hall hov hz0]
                  refine ⟨fun q ha hw => ?_, fun ha => absurd ha (by simp [doubleExcess, tripleExcess])⟩
                  rw [if_pos (lt_of_le_of_ne hinc (Ne.symm hz0)), Option.some_inj] at hw
                  subst hw
                  exact isHalfMultiple_roundWeight _
            · rw [doubleCore_increase_reps _ _ _ _ h0 hval hs hgt hall]
              exact ⟨fun q ha hw => absurd ha (by simp [doubleExcess, tripleExcess]), fun ha => absurd ha (by simp [doubleExcess, tripleExcess])⟩
  · unfold getTripleProgressionSuggestion
    by_cases h0 : workingSetsOf l = []
    · by_cases ha0 : allSetsOf l = []
      · rw [h0, ha0, tripleCore_no_data]
        exact ⟨fun q ha hw => absurd ha (by simp [doubleExcess, tripleExcess]), fun ha => absurd ha (by simp [doubleExcess, tripleExcess])⟩
      · rw [h0, tripleCore_none_completed _ _ _ ha0]
        exact ⟨fun q ha hw => absurd ha (by simp [doubleExcess, tripleExcess]), fun ha => absurd ha (by simp [doubleExcess, tripleExcess])⟩
    · by_cases hv : 0 < (getInvalidSets (workingSetsOf l)).length
      · rw [tripleCore_invalid _ _ _ _ h0 hv]
        exact ⟨fun q ha hw => absurd ha (by simp [doubleExcess, tripleExcess]), fun ha => absurd ha (by simp [doubleExcess, tripleExcess])⟩
      · have hval : getInvalidSets (workingSetsOf l) = [] :=
          List.length_eq_zero.mp (Nat.eq_zero_of_not_pos hv)
        by_cases hs : avgRepsOf (workingSetsOf l) < ex.targetRepMin / 2
        · by_cases hz : max 0 (consensusWeightQ (workingSetsOf l) - ex.weightIncrement) = 0 ∧
              consensusWeightQ (workingSetsOf l) = 0
          · rw [tripleCore_reduce_zero _ _ _ _ h0 hval hs hz]
            exact ⟨fun q ha hw => absurd ha (by simp [doubleExcess, tripleExcess]), fun ha => absurd ha (by simp [doubleExcess, tripleExcess])⟩
          · rw [tripleCore_reduce _ _ _ _ h0 hval hs hz]
            exact ⟨fun q ha hw => absurd ha (by simp [doubleExcess, tripleExcess]), fun ha => rfl⟩
        · by_cases hgt : qGtOpt ((workingSetsOf l).length : ℚ) ex.targetSetsMax = true
          · rw [tripleCore_excess _ _ _ _ h0 hval hs hgt]
            exact ⟨fun q ha hw => absurd ha (by simp [doubleExcess, tripleExcess]), fun ha => absurd ha (by simp [doubleExcess, tripleExcess])⟩
          · by_cases hall :
              ((workingSetsOf l).all fun s => jsGe s.reps (JSVal.num ex.targetRepMax)) = true
            · by_cases hlt : qLtOpt ((workingSetsOf l).length : ℚ) ex.targetSetsMax = true
              · rw [tripleCore_add_set _ _ _ _ h0 hval hs hgt hall hlt]
                exact ⟨fun q ha hw => absurd ha (by simp [doubleExcess, tripleExcess]), fun ha => absurd ha (by simp [doubleExcess, tripleExcess])⟩
              · by_cases hov : avgRepsOf (workingSetsOf l) > ex.targetRepMax * (3 / 2) ∧
                    ex.weightIncrement > 0
                · rw [tripleCore_aggressive _ _ _ _ h0 hval hs hgt hall hlt hov]
                  refine ⟨fun q ha hw => ?_, fun ha => absurd ha (by simp [doubleExcess, tripleExcess])⟩
                  rw [Option.some_inj] at hw
                  subst hw
                  exact isHalfMultiple_roundWeight _
                · by_cases hz0 : ex.weightIncrement = 0
                  · rw [tripleCore_bodyweight _ _ _ _ h0 hval hs hgt hall hlt hov hz0]
                    exact ⟨fun q ha hw => absurd ha (by simp [doubleExcess, tripleExcess]), fun ha => absurd ha (by simp [doubleExcess, tripleExcess])⟩
                  · rw [tripleCore_increase _ _ _ _ h0 hval hs hgt hall hlt hov hz0]
                    refine ⟨fun q ha hw => ?_, fun ha => absurd ha (by simp [doubleExcess, tripleExcess])⟩
                    rw [Option.some_inj] at hw
                    subst hw
                    exact isHalfMultiple_roundWeight _
            · rw [tripleCore_increase_reps _ _ _ _ h0 hval hs hgt hall]
              exact ⟨fun q ha hw => absurd ha (by simp [doubleExcess, tripleExcess]), fun ha => absurd ha (by simp [doubleExcess, tripleExcess])⟩

/-- Three completed sets of 12 reps logged at 50.1, the floating-point
rounding scenario. -/
def c1sets51 : List WorkoutSet :=
  [⟨.num (501 / 10), .num 12, false, true⟩, ⟨.num (501 / 10), .num 12, false, true⟩,
   ⟨.num (501 / 10), .num 12, false, true⟩]

theorem c1_rounding_amended_witness :
    (getDoubleProgressionSuggestion c1sets51 exDoubleStd "kg").newWeight = some 55 ∧
    isHalfMultiple 55 := by
  have hws : workingSetsOf c1sets51 = c1sets51 := rfl
  have hinv1 : isInvalidSet ⟨.num (501 / 10), .num 12, false, true⟩ = false := by
    simp only [isInvalidSet, JSVal.isFinite, JSVal.isNeg, Bool.not_true, Bool.false_or,
      Bool.or_eq_false_iff, decide_eq_false_iff_not]
    norm_num
  have hval : getInvalidSets (workingSetsOf c1sets51) = [] := by
    rw [hws]
    simp [getInvalidSets, c1sets51, List.filter_cons, hinv1]
  have havg : avgRepsOf (workingSetsOf c1sets51) = 12 := by
    rw [hws]
    simp only [avgRepsOf, c1sets51, List.map_cons, List.map_nil, JSVal.toQ, List.sum_cons,
      List.sum_nil, List.length_cons, List.length_nil, jsRound]
    norm_num
  have hcw : consensusWeightQ (workingSetsOf c1sets51) = 501 / 10 := by
    rw [hws]
    simp [consensusWeightQ, getMostCommonWeight, dedupeFirst, dedupeFirstAux, List.contains,
      c1sets51, JSVal.toQ, beq_self_eq_true]
  have hs : ¬ avgRepsOf (workingSetsOf c1sets51) < exDoubleStd.targetRepMin / 2 := by
    rw [havg]
    simp only [exDoubleStd]
    norm_num
  have hgt : ¬ ((workingSetsOf c1sets51).length : ℚ) > exDoubleStd.targetSetsMax.getD 4 := by
    rw [hws]
    simp only [c1sets51, List.length_cons, List.length_nil, exDoubleStd, Option.getD]
    norm_num
  have hall : ((workingSetsOf c1sets51).all fun s =>
      jsGe s.reps (JSVal.num exDoubleStd.targetRepMax)) = true := by decide
  have hov : ¬ (avgRepsOf (workingSetsOf c1sets51) > exDoubleStd.targetRepMax * (3 / 2) ∧
      exDoubleStd.weightIncrement > 0) := by
    rw [havg]
    simp only [exDoubleStd, not_and]
    intro h
    norm_num at h
  have hz0 : ¬ exDoubleStd.weightIncrement = 0 := by
    simp only [exDoubleStd]
    norm_num
  have hres := doubleCore_increase (allSetsOf c1sets51) (workingSetsOf c1sets51) exDoubleStd "kg"
    (by rw [hws]; simp [c1sets51]) hval hs hgt hall hov hz0
  have hact : (getDoubleProgressionSuggestion c1sets51 exDoubleStd "kg").action =
      .increase_weight := by
    show (doubleCore (allSetsOf c1sets51) (workingSetsOf c1sets51) exDoubleStd "kg").action = _
    rw [hres]
  have hnw : (getDoubleProgressionSuggestion c1sets51 exDoubleStd "kg").newWeight = some 55 := by
    show (doubleCore (allSetsOf c1sets51) (workingSetsOf c1sets51) exDoubleStd "kg").newWeight = _
    rw [hres]
    show some (if exDoubleStd.weightIncrement > 0
      then roundWeight (consensusWeightQ (workingSetsOf c1sets51) + exDoubleStd.weightIncrement)
      else consensusWeightQ (workingSetsOf c1sets51)) = _
    rw [if_pos (show exDoubleStd.weightIncrement > 0 by simp only [exDoubleStd]; norm_num), hcw]
    simp only [exDoubleStd, roundWeight, jsRound]
    norm_num
  exact ⟨hnw, (c1_rounding_amended c1sets51 exDoubleStd "kg"
    (by simp only [exDoubleStd]; norm_num)).1.1 55 hact hnw⟩

/-- calculate1RM on two finite arguments, with the finiteness guard
discharged. -/
theorem calculate1RM_num_def (w r : ℚ) :
    calculate1RM (.num w) (.num r) =
      if w < 0 ∨ r < 0 then 0
      else if r = 0 then 0
      else if r = 1 then w
      else jsRound (w * (1 + min (r / 30) 1)) := by
  simp [calculate1RM, JSVal.isFinite, JSVal.toQ]

/-- C2 counterexample: calculate1RM(0.3, 30) = round(0.3 * 2) = 1, which
exceeds 2 * 0.3 = 0.6 - the final integer rounding can push the estimate
above the 2x cap when 2 * weight is not an integer. -/
theorem c2_counterexample_cap_exceeded :
    2 * ((3 : ℚ) / 10) < calculate1RM (.num (3 / 10)) (.num 30) := by
  rw [calculate1RM_num_def]
  rw [if_neg (by norm_num), if_neg (by norm_num), if_neg (by norm_num)]
  simp only [jsRound]
  norm_num

/-- C2 amended: the boundary contract of calculate1RM holds except that the
extrapolation cap is only exact up to the final integer rounding: the
estimate is at most 2w + 1/2 in general, and at most 2w whenever 2w is an
integer (in particular for every weight on the 0.5 grid); the identity at one
rep, the zero at zero reps, and the zero on negative or non-finite inputs
hold as claimed. -/
theorem c2_1rm_boundary_amended (w r : ℚ) :
    (0 ≤ w → calculate1RM (.num w) (.num 1) = w) ∧
    calculate1RM (.num w) (.num 0) = 0 ∧
    (0 ≤ w → 0 ≤ r → calculate1RM (.num w) (.num r) ≤ 2 * w + 1 / 2) ∧
    (0 ≤ w → 0 ≤ r → (2 * w).den = 1 → calculate1RM (.num w) (.num r) ≤ 2 * w) ∧
    (w < 0 ∨ r < 0 → calculate1RM (.num w) (.num r) = 0) ∧
    calculate1RM .nan (.num r) = 0 ∧
    calculate1RM (.num w) .nan = 0 ∧
    calculate1RM .inf (.num r) = 0 ∧
    calculate1RM (.num w) .inf = 0 ∧
    calculate1RM .ninf (.num r) = 0 := by
  have hbound : ∀ x : ℚ, x ≤ 2 * w → jsRound x ≤ 2 * w + 1 / 2 := by
    intro x hx
    calc (⌊x + 1 / 2⌋ : ℚ) ≤ x + 1 / 2 := Int.floor_le _
    _ ≤ 2 * w + 1 / 2 := by linarith
  have hmain : 0 ≤ w → 0 ≤ r → ¬ r = 0 → ¬ r = 1 →
      w * (1 + min (r / 30) 1) ≤ 2 * w := by
    intro hw _ _ _
    have hm : min (r / 30) 1 ≤ 1 := min_le_right _ _
    calc w * (1 + min (r / 30) 1) ≤ w * 2 := by nlinarith
    _ = 2 * w := by ring
  refine ⟨fun hw => ?_, ?_, fun hw hr => ?_, fun hw hr hden => ?_, fun h => ?_,
    rfl, rfl, rfl, rfl, rfl⟩
  · rw [calculate1RM_num_def, if_neg (by push_neg; exact ⟨hw, by norm_num⟩),
      if_neg (by norm_num), if_pos rfl]
  · rw [calculate1RM_num_def]
    split_ifs with h1 h2 h3
    · rfl
    · rfl
    · exact absurd h3 (by norm_num)
    · exact absurd rfl h2
  · rw [calculate1RM_num_def]
    split_ifs with h1 h2 h3
    · linarith
    · linarith
    · linarith
    · exact hbound _ (hmain hw hr h2 h3)
  · rw [calculate1RM_num_def]
    have h2w : ((2 * w).num : ℚ) = 2 * w := by
      conv_rhs => rw [← Rat.num_div_den (2 * w)]
      rw [hden]
      simp
    split_ifs with h1 h2 h3
    · linarith
    · linarith
    · linarith
    · have hx := hmain hw hr h2 h3
      have hfl : ⌊w * (1 + min (r / 30) 1) + 1 / 2⌋ ≤ (2 * w).num := by
        have hstep : ⌊w * (1 + min (r / 30) 1) + 1 / 2⌋ ≤ ⌊2 * w + 1 / 2⌋ :=
          Int.floor_le_floor (by linarith)
        have heq : ⌊2 * w + 1 / 2⌋ = (2 * w).num := by
          rw [← h2w, Int.floor_int_add]
          norm_num
        rw [heq] at hstep
        exact hstep
      have hc : ((⌊w * (1 + min (r / 30) 1) + 1 / 2⌋ : ℤ) : ℚ) ≤ ((2 * w).num : ℚ) := by
        exact_mod_cast hfl
      rw [h2w] at hc
      exact hc
  · rw [calculate1RM_num_def, if_pos h]

theorem c2_1rm_boundary_amended_witness :
    calculate1RM (.num 100) (.num 1) = 100 ∧
    calculate1RM (.num 100) (.num 0) = 0 ∧
    calculate1RM (.num 100) (.num 40) ≤ 2 * 100 ∧
    calculate1RM (.num (-1)) (.num 5) = 0 ∧
    calculate1RM .nan (.num 5) = 0 :=
  ⟨(c2_1rm_boundary_amended 100 1).1 (by norm_num),
   (c2_1rm_boundary_amended 100 0).2.1,
   (c2_1rm_boundary_amended 100 40).2.2.2.1 (by norm_num) (by norm_num) (by norm_num),
   (c2_1rm_boundary_amended (-1) 5).2.2.2.2.1 (Or.inl (by norm_num)),
   (c2_1rm_boundary_amended 100 5).2.2.2.2.2.1⟩

/-- Two strings whose first characters differ are different (used to tell the
excess-volume message apart from the bodyweight-plateau message). -/
theorem head_ne_absurd (s t : String) (c d : Char) (hc : c ≠ d) (h : s = t)
    (hs : s.data.head? = some c) (ht : t.data.head? = some d) : False := by
  rw [h] at hs
  exact hc (Option.some.inj (hs.symm.trans ht))

/-- C8: for valid working sets past the struggling branch, both strategies
return the excess-volume maintain branch exactly when the working-set count
strictly exceeds targetSetsMax; a session with exactly targetSetsMax working
sets is never flagged. -/
theorem c8_excess_volume_strict_boundary (l : List WorkoutSet) (ex : Exercise) (u : String)
    (hne : workingSetsOf l ≠ []) (hval : getInvalidSets (workingSetsOf l) = [])
    (hnost : ¬ avgRepsOf (workingSetsOf l) < ex.targetRepMin / 2) :
    ((((workingSetsOf l).length : ℚ) > ex.targetSetsMax.getD 4 ↔
      getDoubleProgressionSuggestion l ex u = doubleExcess (workingSetsOf l) ex u)) ∧
    (∀ smax : ℚ, ex.targetSetsMax = some smax →
      ((((workingSetsOf l).length : ℚ) > smax) ↔
        getTripleProgressionSuggestion l ex u = tripleExcess (workingSetsOf l) ex u)) := by
  constructor
  · constructor
    · intro hgt
      exact doubleCore_excess _ _ _ _ hne hval hnost hgt
    · intro heq
      by_contra hgt
      unfold getDoubleProgressionSuggestion at heq
      by_cases hall :
          ((workingSetsOf l).all fun s => jsGe s.reps (JSVal.num ex.targetRepMax)) = true
      · by_cases hov : avgRepsOf (workingSetsOf l) > ex.targetRepMax * (3 / 2) ∧
            ex.weightIncrement > 0
        · rw [doubleCore_aggressive _ _ _ _ hne hval hnost hgt hall hov] at heq
          have hact := congrArg ProgressionSuggestion.action heq
          simp [doubleExcess] at hact
        · by_cases hz0 : ex.weightIncrement = 0
          · rw [doubleCore_bodyweight _ _ _ _ hne hval hnost hgt hall hov hz0] at heq
            have hmsg := congrArg ProgressionSuggestion.message heq
            exact head_ne_absurd _ _ 'G' 'T' (by decide) hmsg rfl rfl
          · rw [doubleCore_increase _ _ _ _ hne hval hnost hgt hall hov hz0] at heq
            have hact := congrArg ProgressionSuggestion.action heq
            simp [doubleExcess] at hact
      · rw [doubleCore_increase_reps _ _ _ _ hne hval hnost hgt hall] at heq
        have hact := congrArg ProgressionSuggestion.action heq
        simp [doubleExcess] at hact
  · intro smax hmax
    constructor
    · intro hgt
      apply tripleCore_excess _ _ _ _ hne hval hnost
      rw [hmax]
      simp only [qGtOpt, decide_eq_true_eq]
      exact hgt
    · intro heq
      by_contra hgt
      have hgtb : ¬ qGtOpt ((workingSetsOf l).length : ℚ) ex.targetSetsMax = true := by
        rw [hmax]
        simp only [qGtOpt, decide_eq_true_eq]
        exact hgt
      unfold getTripleProgressionSuggestion at heq
      by_cases hall :
          ((workingSetsOf l).all fun s => jsGe s.reps (JSVal.num ex.targetRepMax)) = true
      · by_cases hlt : qLtOpt ((workingSetsOf l).length : ℚ) ex.targetSetsMax = true
        · rw [tripleCore_add_set _ _ _ _ hne hval hnost hgtb hall hlt] at heq
          have hact := congrArg ProgressionSuggestion.action heq
          simp [tripleExcess] at hact
        · by_cases hov : avgRepsOf (workingSetsOf l) > ex.targetRepMax * (3 / 2) ∧
              ex.weightIncrement > 0
          · rw [tripleCore_aggressive _ _ _ _ hne hval hnost hgtb hall hlt hov] at heq
            have hact := congrArg ProgressionSuggestion.action heq
            simp [tripleExcess] at hact
          · by_cases hz0 : ex.weightIncrement = 0
            · rw [tripleCore_bodyweight _ _ _ _ hne hval hnost hgtb hall hlt hov hz0] at heq
              have hmsg := congrArg ProgressionSuggestion.message heq
              exact head_ne_absurd _ _ 'G' 'T' (by decide) hmsg rfl rfl
            · rw [tripleCore_increase _ _ _ _ hne hval hnost hgtb hall hlt hov hz0] at heq
              have hact := congrArg ProgressionSuggestion.action heq
              simp [tripleExcess] at hact
      · rw [tripleCore_increase_reps _ _ _ _ hne hval hnost hgtb hall] at heq
        have hact := congrArg ProgressionSuggestion.action heq
        simp [tripleExcess] at hact

/-- Four completed sets of 10 reps at 60: exactly targetSetsMax sets. -/
def c8sets : List WorkoutSet :=
  [⟨.num 60, .num 10, false, true⟩, ⟨.num 60, .num 10, false, true⟩,
   ⟨.num 60, .num 10, false, true⟩, ⟨.num 60, .num 10, false, true⟩]

theorem c8_excess_volume_strict_boundary_witness :
    getDoubleProgressionSuggestion c8sets exDoubleStd "kg" ≠
      doubleExcess (workingSetsOf c8sets) exDoubleStd "kg" := by
  have hws : workingSetsOf c8sets = c8sets := by decide
  have hnost : ¬ avgRepsOf (workingSetsOf c8sets) < exDoubleStd.targetRepMin / 2 := by
    rw [hws]
    simp only [avgRepsOf, c8sets, exDoubleStd, List.map_cons, List.map_nil, JSVal.toQ,
      List.sum_cons, List.sum_nil, List.length_cons, List.length_nil, jsRound]
    norm_num
  intro heq
  have hiff := (c8_excess_volume_strict_boundary c8sets exDoubleStd "kg" (by decide) (by decide)
    hnost).1
  have hgt := hiff.mpr heq
  rw [hws] at hgt
  simp only [c8sets, List.length_cons, List.length_nil, exDoubleStd, Option.getD] at hgt
  norm_num at hgt

/-- A JSVal is finite exactly when it carries a rational. -/
theorem JSVal.isFinite_iff (v : JSVal) : v.isFinite = true ↔ ∃ q : ℚ, v = .num q := by
  cases v <;> simp [JSVal.isFinite]

/-- Membership in the first-occurrence deduplication. -/
theorem mem_dedupeFirstAux (l : List JSVal) :
    ∀ (seen : List JSVal) (v : JSVal),
      v ∈ dedupeFirstAux seen l ↔ v ∈ l ∧ v ∉ seen := by
  induction l with
  | nil => simp [dedupeFirstAux]
  | cons x xs ih =>
    intro seen v
    by_cases hx : seen.contains x
    · rw [dedupeFirstAux, if_pos hx, ih]
      constructor
      · rintro ⟨hv, hnv⟩
        exact ⟨List.mem_cons_of_mem _ hv, hnv⟩
      · rintro ⟨hv, hnv⟩
        rcases List.mem_cons.mp hv with rfl | hv'
        · exact absurd (List.elem_iff.mp hx) hnv
        · exact ⟨hv', hnv⟩
    · rw [dedupeFirstAux, if_neg hx]
      constructor
      · intro hv
        rcases List.mem_cons.mp hv with rfl | hv'
        · exact ⟨List.mem_cons_self _ _, fun hseen => hx (List.elem_iff.mpr hseen)⟩
        · obtain ⟨h1, h2⟩ := (ih (x :: seen) v).mp hv'
          exact ⟨List.mem_cons_of_mem _ h1,
            fun hseen => h2 (List.mem_cons_of_mem _ hseen)⟩
      · rintro ⟨hv, hnv⟩
        rcases List.mem_cons.mp hv with rfl | hv'
        · exact List.mem_cons_self _ _
        · by_cases hvx : v = x
          · subst hvx
            exact List.mem_cons_self _ _
          · exact List.mem_cons_of_mem _ ((ih (x :: seen) v).mpr
              ⟨hv', fun hmem => by
                rcases List.mem_cons.mp hmem with h | h
                · exact hvx h
                · exact hnv h⟩)

/-- Membership in the deduplicated weights equals membership in the original
list. -/
theorem mem_dedupeFirst (l : List JSVal) (v : JSVal) : v ∈ dedupeFirst l ↔ v ∈ l := by
  rw [dedupeFirst, mem_dedupeFirstAux]
  simp

/-- The total preorder decided by the sort comparator: fewer occurrences, or
equally many with a smaller (finite) weight. -/
def wcLe (a b : WeightCount) : Prop :=
  a.count < b.count ∨ (a.count = b.count ∧ a.weight.toQ ≤ b.weight.toQ)

theorem wcLe_refl (a : WeightCount) : wcLe a a := Or.inr ⟨rfl, le_refl _⟩

theorem wcLe_trans {a b c : WeightCount} (h1 : wcLe a b) (h2 : wcLe b c) : wcLe a c := by
  rcases h1 with h1 | ⟨h1, h1q⟩ <;> rcases h2 with h2 | ⟨h2, h2q⟩
  · exact Or.inl (lt_trans h1 h2)
  · exact Or.inl (h2 ▸ h1)
  · exact Or.inl (h1 ▸ h2)
  · exact Or.inr ⟨h1.trans h2, le_trans h1q h2q⟩

/-- On finite weights the comparator returning "not strictly before" is
exactly the preorder wcLe. -/
theorem wcBefore_eq_false_iff (a b : WeightCount)
    (ha : a.weight.isFinite = true) (hb : b.weight.isFinite = true) :
    wcBefore a b = false ↔ wcLe a b := by
  obtain ⟨qa, hqa⟩ := (JSVal.isFinite_iff _).mp ha
  obtain ⟨qb, hqb⟩ := (JSVal.isFinite_iff _).mp hb
  rw [wcBefore, hqa, hqb]
  simp only [jsGt, Bool.or_eq_false_iff, Bool.and_eq_false_iff, decide_eq_false_iff_not,
    wcLe, hqa, hqb, JSVal.toQ]
  constructor
  · rintro ⟨h1, h2 | h2⟩
    · rcases Nat.lt_or_ge a.count b.count with h | h
      · exact Or.inl h
      · exact absurd (Nat.le_antisymm (Nat.le_of_not_lt h1) h) h2
    · rcases Nat.lt_or_ge a.count b.count with h | h
      · exact Or.inl h
      · exact Or.inr ⟨Nat.le_antisymm (Nat.le_of_not_lt h1) h, le_of_not_lt h2⟩
  · rintro (h | ⟨h1, h2⟩)
    · exact ⟨Nat.not_lt.mpr (Nat.le_of_lt h), Or.inl (Nat.ne_of_lt h)⟩
    · exact ⟨Nat.not_lt.mpr (Nat.le_of_eq h1), Or.inr (not_lt.mpr h2)⟩

/-- The comparator saying x is strictly before b yields the preorder the
other way around (on finite weights). -/
theorem wcLe_of_wcBefore {x b : WeightCount} (hx : x.weight.isFinite = true)
    (hb : b.weight.isFinite = true) (h : wcBefore x b = true) : wcLe b x := by
  obtain ⟨qx, hqx⟩ := (JSVal.isFinite_iff _).mp hx
  obtain ⟨qb, hqb⟩ := (JSVal.isFinite_iff _).mp hb
  rw [wcBefore, hqx, hqb] at h
  simp only [jsGt, Bool.or_eq_true, Bool.and_eq_true, decide_eq_true_eq] at h
  rcases h with h | ⟨h1, h2⟩
  · exact Or.inl h
  · exact Or.inr ⟨h1.symm, by rw [hqx, hqb]; exact le_of_lt h2⟩

/-- The fold selecting the comparator maximum returns its seed or a list
element. -/
theorem pickFirstSorted_cons (b x : WeightCount) (xs : List WeightCount) :
    pickFirstSorted b (x :: xs) = pickFirstSorted (if wcBefore x b then x else b) xs := rfl

theorem pickFirstSorted_mem (b : WeightCount) (l : List WeightCount) :
    pickFirstSorted b l = b ∨ pickFirstSorted b l ∈ l := by
  induction l generalizing b with
  | nil => exact Or.inl rfl
  | cons x xs ih =>
    rw [pickFirstSorted_cons]
    by_cases hx : wcBefore x b = true
    · rw [if_pos hx]
      rcases ih x with h | h
      · right
        rw [h]
        exact List.mem_cons_self x xs
      · right
        exact List.mem_cons_of_mem x h
    · rw [if_neg hx]
      rcases ih b with h | h
      · exact Or.inl h
      · right
        exact List.mem_cons_of_mem x h

/-- The fold result is maximal (under wcLe) among the seed and the list, for
finite weights. -/
theorem pickFirstSorted_max (b : WeightCount) (l : List WeightCount)
    (hb : b.weight.isFinite = true) (hl : ∀ x ∈ l, x.weight.isFinite = true) :
    wcLe b (pickFirstSorted b l) ∧ ∀ x ∈ l, wcLe x (pickFirstSorted b l) := by
  induction l generalizing b with
  | nil => exact ⟨wcLe_refl b, by simp⟩
  | cons x xs ih =>
    have hx := hl x (List.mem_cons_self x xs)
    have hxs : ∀ y ∈ xs, y.weight.isFinite = true := fun y hy =>
      hl y (List.mem_cons_of_mem _ hy)
    rw [pickFirstSorted_cons]
    by_cases hxb : wcBefore x b = true
    · rw [if_pos hxb]
      have ihx := ih x hx hxs
      have hbx : wcLe b x := wcLe_of_wcBefore hx hb hxb
      refine ⟨wcLe_trans hbx ihx.1, fun y hy => ?_⟩
      rcases List.mem_cons.mp hy with rfl | hy'
      · exact ihx.1
      · exact ihx.2 y hy'
    · rw [if_neg hxb]
      have ihb := ih b hb hxs
      have hxb' : wcLe x b :=
        (wcBefore_eq_false_iff x b hx hb).mp (Bool.not_eq_true _ ▸ hxb)
      refine ⟨ihb.1, fun y hy => ?_⟩
      rcases List.mem_cons.mp hy with rfl | hy'
      · exact wcLe_trans hxb' ihb.1
      · exact ihb.2 y hy'

/-- C4: on a non-empty list of working sets with finite weights, the
consensus resolver returns one of the logged weights whose occurrence count
is maximal, and any weight tying that count is no larger than the returned
one. -/
theorem c4_consensus_max_count_tie_largest (ws : List WorkoutSet) (hne : ws ≠ [])
    (hfin : ∀ s ∈ ws, s.weight.isFinite = true) :
    ∃ q : ℚ, getMostCommonWeight ws = .num q ∧
      (∃ s ∈ ws, s.weight = .num q) ∧
      ∀ s ∈ ws, countWeight s.weight ws ≤ countWeight (.num q) ws ∧
        (countWeight s.weight ws = countWeight (.num q) ws → s.weight.toQ ≤ q) := by
  rcases hD : dedupeFirst (ws.map fun s => s.weight) with _ | ⟨w, _ | ⟨v, vs⟩⟩
  · exfalso
    obtain ⟨s, hs⟩ := List.exists_mem_of_ne_nil ws hne
    have : s.weight ∈ dedupeFirst (ws.map fun s => s.weight) :=
      (mem_dedupeFirst _ _).mpr (List.mem_map.mpr ⟨s, hs, rfl⟩)
    rw [hD] at this
    exact absurd this (List.not_mem_nil _)
  · have hwmap : w ∈ ws.map fun s => s.weight :=
      (mem_dedupeFirst _ _).mp (by rw [hD]; exact List.mem_cons_self _ _)
    obtain ⟨s0, hs0, hs0w⟩ := List.mem_map.mp hwmap
    have hwfin : w.isFinite = true := hs0w ▸ hfin s0 hs0
    obtain ⟨q, hq⟩ := (JSVal.isFinite_iff w).mp hwfin
    have hall : ∀ s ∈ ws, s.weight = w := by
      intro s hs
      have : s.weight ∈ dedupeFirst (ws.map fun t => t.weight) :=
        (mem_dedupeFirst _ _).mpr (List.mem_map.mpr ⟨s, hs, rfl⟩)
      rw [hD] at this
      rcases List.mem_cons.mp this with h | h
      · exact h
      · exact absurd h (List.not_mem_nil _)
    refine ⟨q, ?_, ⟨s0, hs0, by rw [hs0w, hq]⟩, ?_⟩
    · simp only [getMostCommonWeight, hD]
      exact hq
    · intro s hs
      have hsw := hall s hs
      refine ⟨le_of_eq (by rw [hsw, ← hq]), fun _ => ?_⟩
      rw [hsw, hq]
      exact le_refl _
  · have hfinD : ∀ x ∈ w :: v :: vs, x.isFinite = true := by
      intro x hx
      have hxmap : x ∈ ws.map fun s => s.weight :=
        (mem_dedupeFirst _ _).mp (by rw [hD]; exact hx)
      obtain ⟨s, hs, hsx⟩ := List.mem_map.mp hxmap
      exact hsx ▸ hfin s hs
    have hseedfin : (WeightCount.mk w (countWeight w ws)).weight.isFinite = true :=
      hfinD w (List.mem_cons_self _ _)
    have hlfin : ∀ y ∈ (v :: vs).map fun x => WeightCount.mk x (countWeight x ws),
        y.weight.isFinite = true := by
      intro y hy
      obtain ⟨x, hx, rfl⟩ := List.mem_map.mp hy
      exact hfinD x (List.mem_cons_of_mem _ hx)
    have hrmem := pickFirstSorted_mem (WeightCount.mk w (countWeight w ws))
      ((v :: vs).map fun x => WeightCount.mk x (countWeight x ws))
    have hrD : ∃ x ∈ w :: v :: vs,
        pickFirstSorted (WeightCount.mk w (countWeight w ws))
          ((v :: vs).map fun x => WeightCount.mk x (countWeight x ws)) =
          WeightCount.mk x (countWeight x ws) := by
      rcases hrmem with h | h
      · exact ⟨w, List.mem_cons_self _ _, h⟩
      · obtain ⟨x, hx, hxeq⟩ := List.mem_map.mp h
        exact ⟨x, List.mem_cons_of_mem _ hx, hxeq.symm⟩
    obtain ⟨x0, hx0D, hrx0⟩ := hrD
    obtain ⟨q, hq⟩ := (JSVal.isFinite_iff x0).mp (hfinD x0 hx0D)
    have hmax := pickFirstSorted_max (WeightCount.mk w (countWeight w ws))
      ((v :: vs).map fun x => WeightCount.mk x (countWeight x ws)) hseedfin hlfin
    have hmaxAll : ∀ x ∈ w :: v :: vs,
        wcLe (WeightCount.mk x (countWeight x ws))
          (pickFirstSorted (WeightCount.mk w (countWeight w ws))
            ((v :: vs).map fun y => WeightCount.mk y (countWeight y ws))) := by
      intro x hx
      rcases List.mem_cons.mp hx with rfl | hx'
      · exact hmax.1
      · exact hmax.2 _ (List.mem_map.mpr ⟨x, hx', rfl⟩)
    refine ⟨q, ?_, ?_, ?_⟩
    · simp only [getMostCommonWeight, hD]
      rw [hrx0]
      exact hq
    · have hx0map : x0 ∈ ws.map fun s => s.weight :=
        (mem_dedupeFirst _ _).mp (by rw [hD]; exact hx0D)
      obtain ⟨s, hs, hsx⟩ := List.mem_map.mp hx0map
      exact ⟨s, hs, by rw [hsx, hq]⟩
    · intro s hs
      have hswD : s.weight ∈ w :: v :: vs := by
        rw [← hD]
        exact (mem_dedupeFirst _ _).mpr (List.mem_map.mpr ⟨s, hs, rfl⟩)
      have hle := hmaxAll s.weight hswD
      rw [hrx0] at hle
      have hcnt : countWeight (.num q) ws = countWeight x0 ws := by rw [← hq]
      constructor
      · rcases hle with h | ⟨h, _⟩
        · rw [hcnt]
          exact Nat.le_of_lt h
        · rw [hcnt]
          exact Nat.le_of_eq h
      · intro heqc
        rcases hle with h | ⟨h, hq2⟩
        · exact absurd heqc (by rw [hcnt]; exact Nat.ne_of_lt h)
        · rw [hq] at hq2
          exact hq2

/-- Two sets at 100 and 105 with equal counts; the tie resolves to 105. -/
def c4tie : List WorkoutSet :=
  [⟨.num 100, .num 10, false, true⟩, ⟨.num 105, .num 10, false, true⟩]

/-- Two sets at 100 against one at 105; the majority weight 100 wins. -/
def c4majority : List WorkoutSet :=
  [⟨.num 100, .num 10, false, true⟩, ⟨.num 100, .num 10, false, true⟩,
   ⟨.num 105, .num 8, false, true⟩]

theorem c4_consensus_max_count_tie_largest_witness :
    getMostCommonWeight c4tie = .num 105 ∧
    getMostCommonWeight c4majority = .num 100 ∧
    ∃ q : ℚ, getMostCommonWeight c4tie = .num q ∧
      countWeight (.num 100) c4tie ≤ countWeight (.num q) c4tie := by
  refine ⟨by decide, by decide, ?_⟩
  obtain ⟨q, hq, _, hmax⟩ := c4_consensus_max_count_tie_largest c4tie (by decide) (by decide)
  exact ⟨q, hq, (hmax ⟨.num 100, .num 10, false, true⟩ (by decide)).1⟩
